import Mathlib

/-! # AvoidTheBug3D: game logic of the small3d sample game

A shallow embedding of `samples/AvoidTheBug3D/src/GameLogic.cpp`, of
`getTokens` (`small3d/src/GetTokens.cpp`), of the two collision queries
declared in `small3d/include/small3d/BoundingBoxes.hpp` and of the texture
registry of `small3d/src/Renderer.cpp`.

Conventions of the embedding:

* `float` values are exact rationals (`ℚ`); rounding of the machine
  arithmetic is not modelled, except in the section "moveGoat in rounded
  arithmetic", where every float result goes through a rounding function.
  A quotient whose divisor is zero has no
  rational value: `fdiv` returns `none` for it (the NaN / infinity of the
  machine), and `none` is carried through the arithmetic that consumes it.
* `sqrt`, `cos`, `sin`, the macro `ROUND_2_DECIMAL` and the collision queries
  of `SceneObject` are not defined in the sources at hand; they are fields of
  `Env` and every theorem holds for all of them.
* `SDL_GetTicks()` returns a `Uint32`; the value it returns during a call is
  the argument `now`, and the subtraction of two readings wraps modulo `2^32`.
* `sound->play(name)` appends `name` to the field `played`.
* Calls that only touch the animation frame of a `SceneObject`
  (`startAnimating`, `stopAnimating`, `animate`) and the renderer are state of
  the rendering side and leave every modelled field unchanged.
-/

namespace AvoidTheBug3D

/-! ## Constants (`#define`s of GameLogic.cpp) -/

def MAX_Z : ℚ := -1
def MIN_Z : ℚ := -24
def GROUND_Y : ℚ := -1
def FULL_ROTATION : ℚ := 628 / 100
def BUG_ROTATION_SPEED : ℚ := 12 / 100
def BUG_DIVE_TILT : ℚ := 8 / 10
def BUG_SPEED : ℚ := 8 / 100
def BUG_DIVE_DURATION : Int := 30
def BUG_START_DIVE_DISTANCE : ℚ := 6 / 10
def BUG_FLIGHT_HEIGHT : ℚ := 14 / 10
def GOAT_ROTATION_SPEED : ℚ := 1 / 10
def GOAT_SPEED : ℚ := 5 / 100

/-! ## Data model -/

/-- The three components of a `glm::vec3`. -/
structure Vec3 where
  x : ℚ
  y : ℚ
  z : ℚ
deriving DecidableEq

/-- The data members of `small3d::BoundingBoxes` (BoundingBoxes.hpp). -/
structure BoundingBoxes where
  numBoxes : Int
  offset : Vec3
  rotation : Vec3
  vertices : List (List ℚ)
  facesVertexIndexes : List (List Int)
deriving DecidableEq

/-- Modelled from the spec: the class `SceneObject`, whose declaration is not
among the sources.  A pose (`offset`, `rotation`, the two members
GameLogic.cpp reads and writes) and the bounding boxes the object owns, from
which its collision queries are answered. -/
structure SceneObject where
  offset : Vec3
  rotation : Vec3
  boundingBoxes : BoundingBoxes
deriving DecidableEq

/-- Modelled from the spec: the enum `BugState`, declared in GameLogic.hpp,
which is not among the sources; its four enumerators are the ones
GameLogic.cpp names. -/
inductive BugState where
  | FLYING_STRAIGHT
  | TURNING
  | DIVING_DOWN
  | DIVING_UP
deriving DecidableEq

/-- Modelled from the spec: the enum `GameState`, declared in GameLogic.hpp,
which is not among the sources, with the enumerators START_SCREEN and PLAYING.
The variable `gameState` holds the integer of an enumerator, so that the
`default:` branch of `process` has inputs. -/
abbrev GameState := Nat

/-- Modelled from the spec: the first enumerator of `GameState`. -/
def START_SCREEN : GameState := 0

/-- Modelled from the spec: the second enumerator of `GameState`. -/
def PLAYING : GameState := 1

/-- Modelled from the spec: the struct `KeyInput`, whose declaration is not
among the sources: the per-tick snapshot of the five flags GameLogic.cpp
reads. -/
structure KeyInput where
  left : Bool
  right : Bool
  up : Bool
  down : Bool
  enter : Bool
deriving DecidableEq

/-- Modelled from the spec: the data members of the class `GameLogic`
(GameLogic.hpp is not among the sources) that `process` reads or writes, under
the names GameLogic.cpp uses, and the log of the sounds played.  The frame
counter is an integer without a bound, `startTicks` a clock reading and
`seconds` the stored survival time. -/
structure GameLogic where
  goat : SceneObject
  bug : SceneObject
  tree : SceneObject
  gameState : GameState
  bugState : BugState
  bugPreviousState : BugState
  bugFramesInCurrentState : Int
  bugVerticalSpeed : ℚ
  startTicks : Nat
  seconds : Nat
  played : List String
deriving DecidableEq

/-- The functions GameLogic.cpp calls whose definitions are elsewhere. -/
structure Env where
  sqrt : ℚ → ℚ
  cos : ℚ → ℚ
  sin : ℚ → ℚ
  ROUND_2_DECIMAL : ℚ → ℚ
  collidesWithPoint : SceneObject → ℚ → ℚ → ℚ → Bool
  collidesWithSceneObject : SceneObject → SceneObject → Bool

/-! ## Arithmetic helpers -/

/-- Division of two floats: no rational value when the divisor is zero. -/
def fdiv (a d : ℚ) : Option ℚ :=
  if d = 0 then none else some (a / d)

/-- Product of a possibly undefined value and a value. -/
def fmul (a : Option ℚ) (b : ℚ) : Option ℚ :=
  a.map (fun v => v * b)

/-- Sum of two possibly undefined values. -/
def fadd (a b : Option ℚ) : Option ℚ :=
  match a, b with
  | some u, some v => some (u + v)
  | _, _ => none

/-- The comparison `a < c` on a possibly undefined `a`: false when `a` is
undefined, as every comparison with a NaN is. -/
def flt (a : Option ℚ) (c : ℚ) : Bool :=
  match a with
  | some v => decide (v < c)
  | none => false

/-- The difference `now - start` of two `Uint32` clock readings. -/
def ticksSince (now start : Nat) : Nat :=
  (now + 4294967296 - start % 4294967296) % 4294967296

/-! ## moveBug -/

/-- Line 192: the variable `distance`. -/
def bugDistance (env : Env) (g : GameLogic) : ℚ :=
  let xDistance := g.bug.offset.x - g.goat.offset.x
  let zDistance := g.bug.offset.z - g.goat.offset.z
  env.ROUND_2_DECIMAL (env.sqrt (xDistance * xDistance + zDistance * zDistance))

/-- Line 194: the variable `goatRelX`. -/
def goatRelX (env : Env) (g : GameLogic) : Option ℚ :=
  (fdiv (g.bug.offset.x - g.goat.offset.x) (bugDistance env g)).map env.ROUND_2_DECIMAL

/-- Line 195: the variable `goatRelZ`. -/
def goatRelZ (env : Env) (g : GameLogic) : Option ℚ :=
  (fdiv (g.bug.offset.z - g.goat.offset.z) (bugDistance env g)).map env.ROUND_2_DECIMAL

/-- Lines 197-200: the variable `dotPosDir`, from the two bearing values. -/
def dotProduct (env : Env) (g : GameLogic) (relX relZ : Option ℚ) : Option ℚ :=
  let bugDirectionX := env.cos g.bug.rotation.y
  let bugDirectionZ := env.sin g.bug.rotation.y
  fadd (fmul relX bugDirectionX) (fmul relZ bugDirectionZ)

/-- The variable `dotPosDir` of a tick started in `g`. -/
def dotPosDir (env : Env) (g : GameLogic) : Option ℚ :=
  dotProduct env g (goatRelX env g) (goatRelZ env g)

/-- Lines 203-211: the frame counter and the one-tick memory of the state. -/
def countFrames (g : GameLogic) : GameLogic :=
  let g1 :=
    if g.bugState = g.bugPreviousState then
      { g with bugFramesInCurrentState := g.bugFramesInCurrentState + 1 }
    else
      { g with bugFramesInCurrentState := 1 }
  { g1 with bugPreviousState := g1.bugState }

/-- The query `goat->collidesWithPoint(bug->offset.x, bug->offset.y,
bug->offset.z)` of lines 215 and 230. -/
def bugHitsGoat (env : Env) (g : GameLogic) : Bool :=
  env.collidesWithPoint g.goat g.bug.offset.x g.bug.offset.y g.bug.offset.z

/-- Lines 213-259, "Bug state: decide", with the values of `distance` and
`dotPosDir` computed at the top of the function. -/
def decideBugState (env : Env) (now : Nat) (distance : ℚ) (dot : Option ℚ)
    (g : GameLogic) : GameLogic :=
  if g.bugState = BugState.DIVING_DOWN then
    let g1 :=
      if bugHitsGoat env g then
        { g with
          played := g.played ++ ["bah"]
          seconds := ticksSince now g.startTicks / 1000
          gameState := START_SCREEN }
      else g
    if g1.bugFramesInCurrentState > BUG_DIVE_DURATION / 2 then
      { g1 with bugState := BugState.DIVING_UP }
    else g1
  else if g.bugState = BugState.DIVING_UP then
    let g1 :=
      if bugHitsGoat env g then
        { g with gameState := START_SCREEN }
      else g
    if g1.bugFramesInCurrentState > BUG_DIVE_DURATION / 2 then
      { g1 with
        bugState := BugState.FLYING_STRAIGHT
        bug := { g1.bug with offset := { g1.bug.offset with y := GROUND_Y + BUG_FLIGHT_HEIGHT } } }
    else g1
  else
    if distance > BUG_START_DIVE_DISTANCE then
      if flt dot (98 / 100) then
        { g with bugState := BugState.TURNING }
      else
        { g with bugState := BugState.FLYING_STRAIGHT }
    else
      { g with bugState := BugState.DIVING_DOWN }

/-- Lines 263-283, "Bug state: represent": roll, yaw, altitude and the
wrap of the yaw. -/
def representBugState (g : GameLogic) : GameLogic :=
  let b0 : SceneObject := { g.bug with rotation := { g.bug.rotation with z := 0 } }
  let b1 : SceneObject :=
    if g.bugState = BugState.TURNING then
      { b0 with rotation := { b0.rotation with y := b0.rotation.y - BUG_ROTATION_SPEED } }
    else if g.bugState = BugState.DIVING_DOWN then
      { b0 with
        rotation := { b0.rotation with z := -BUG_DIVE_TILT }
        offset := { b0.offset with y := b0.offset.y - g.bugVerticalSpeed } }
    else if g.bugState = BugState.DIVING_UP then
      { b0 with
        rotation := { b0.rotation with z := BUG_DIVE_TILT }
        offset := { b0.offset with y := b0.offset.y + g.bugVerticalSpeed } }
    else b0
  let b2 : SceneObject :=
    if b1.rotation.y < -FULL_ROTATION then
      { b1 with rotation := { b1.rotation with y := 0 } }
    else b1
  { g with bug := b2 }

/-- Lines 286-287: the forward step along the yaw. -/
def advanceBug (env : Env) (b : SceneObject) : SceneObject :=
  let x1 := b.offset.x - env.cos b.rotation.y * BUG_SPEED
  let z1 := b.offset.z - env.sin b.rotation.y * BUG_SPEED
  { b with offset := { b.offset with x := x1, z := z1 } }

/-- Lines 289-297: the clamp of the bug to the arena. -/
def clampBug (b : SceneObject) : SceneObject :=
  let z1 := if b.offset.z < MIN_Z then MIN_Z else b.offset.z
  let z2 := if z1 > MAX_Z then MAX_Z else z1
  let x1 := if b.offset.x < z2 then z2 else b.offset.x
  let x2 := if x1 > -z2 then -z2 else x1
  { b with offset := { b.offset with x := x2, z := z2 } }

/-- The body of `GameLogic::moveBug` below the two divisions of lines
194-195, whose results are `relX` and `relZ`; `now` is what `SDL_GetTicks()`
returns if the tick reads the clock. -/
def moveBugFrom (env : Env) (g : GameLogic) (now : Nat) (relX relZ : Option ℚ) : GameLogic :=
  let g1 := decideBugState env now (bugDistance env g) (dotProduct env g relX relZ) (countFrames g)
  let g2 := representBugState g1
  { g2 with bug := clampBug (advanceBug env g2.bug) }

/-- The function `GameLogic::moveBug`. -/
def moveBug (env : Env) (g : GameLogic) (now : Nat) : GameLogic :=
  moveBugFrom env g now (goatRelX env g) (goatRelZ env g)

/-! ## initGame -/

/-- The function `GameLogic::initGame`; `now` is what `SDL_GetTicks()` returns. -/
def initGame (g : GameLogic) (now : Nat) : GameLogic :=
  { g with
    goat := { g.goat with offset := { x := -12 / 10, y := GROUND_Y, z := -4 } }
    bug := { g.bug with offset := { x := 5 / 10, y := GROUND_Y + BUG_FLIGHT_HEIGHT, z := -18 } }
    bugState := BugState.FLYING_STRAIGHT
    bugPreviousState := BugState.FLYING_STRAIGHT
    bugFramesInCurrentState := 1
    startTicks := now }

/-! ## moveGoat -/

/-- The statement `goat->rotation.y -= GOAT_ROTATION_SPEED`. -/
def yawMinus (goat : SceneObject) : SceneObject :=
  { goat with rotation := { goat.rotation with y := goat.rotation.y - GOAT_ROTATION_SPEED } }

/-- The statement `goat->rotation.y += GOAT_ROTATION_SPEED`. -/
def yawPlus (goat : SceneObject) : SceneObject :=
  { goat with rotation := { goat.rotation with y := goat.rotation.y + GOAT_ROTATION_SPEED } }

/-- The pair of statements `goat->offset.x -= cos(goat->rotation.y) * GOAT_SPEED`
and `goat->offset.z -= sin(goat->rotation.y) * GOAT_SPEED`. -/
def stepForward (env : Env) (goat : SceneObject) : SceneObject :=
  let x1 := goat.offset.x - env.cos goat.rotation.y * GOAT_SPEED
  let z1 := goat.offset.z - env.sin goat.rotation.y * GOAT_SPEED
  { goat with offset := { goat.offset with x := x1, z := z1 } }

/-- The pair of statements `goat->offset.x += cos(goat->rotation.y) * GOAT_SPEED`
and `goat->offset.z += sin(goat->rotation.y) * GOAT_SPEED`. -/
def stepBack (env : Env) (goat : SceneObject) : SceneObject :=
  let x1 := goat.offset.x + env.cos goat.rotation.y * GOAT_SPEED
  let z1 := goat.offset.z + env.sin goat.rotation.y * GOAT_SPEED
  { goat with offset := { goat.offset with x := x1, z := z1 } }

/-- The loop `while (goat->collidesWithSceneObject(tree)) undo`.  The fuel
bounds the number of times the condition is evaluated; `none` when the
loop has not ended within it. -/
def rollback (env : Env) (tree : SceneObject) (undo : SceneObject → SceneObject) :
    Nat → SceneObject → Option SceneObject
  | 0, _ => none
  | n + 1, goat =>
    if env.collidesWithSceneObject goat tree then rollback env tree undo n (undo goat)
    else some goat

/-- Lines 168-176: the clamp of the goat. -/
def clampGoat (goat : SceneObject) : SceneObject :=
  let z1 := if goat.offset.z < MIN_Z + 1 then MIN_Z + 1 else goat.offset.z
  let z2 := if z1 > MAX_Z - 1 then MAX_Z - 1 else z1
  let x1 := if goat.offset.x < z2 then z2 else goat.offset.x
  let x2 := if x1 > -z2 then -z2 else x1
  { goat with offset := { goat.offset with x := x2, z := z2 } }

/-- Lines 118-141: the rotation of the goat. -/
def turnGoat (env : Env) (fuel : Nat) (tree goat : SceneObject) (keyInput : KeyInput) :
    Option SceneObject :=
  if keyInput.left then
    (rollback env tree yawPlus fuel (yawMinus goat)).map fun p =>
      if p.rotation.y < -FULL_ROTATION then { p with rotation := { p.rotation with y := 0 } }
      else p
  else if keyInput.right then
    (rollback env tree yawMinus fuel (yawPlus goat)).map fun p =>
      if p.rotation.y > FULL_ROTATION then { p with rotation := { p.rotation with y := 0 } }
      else p
  else some goat

/-- Lines 143-166: the translation of the goat. -/
def walkGoat (env : Env) (fuel : Nat) (tree goat : SceneObject) (keyInput : KeyInput) :
    Option SceneObject :=
  if keyInput.up then rollback env tree (stepBack env) fuel (stepForward env goat)
  else if keyInput.down then rollback env tree (stepForward env) fuel (stepBack env goat)
  else some goat

/-- The function `GameLogic::moveGoat`; `none` when one of its loops has not
ended within the fuel. -/
def moveGoat (env : Env) (fuel : Nat) (g : GameLogic) (keyInput : KeyInput) :
    Option GameLogic :=
  match turnGoat env fuel g.tree g.goat keyInput with
  | none => none
  | some goat1 =>
    match walkGoat env fuel g.tree goat1 keyInput with
    | none => none
    | some goat2 => some { g with goat := clampGoat goat2 }

/-! ## process -/

/-- How a call of `process` ends. -/
inductive Outcome where
  | done (g : GameLogic)
  | thrown (what : String)
  | unfinished
deriving DecidableEq

/-- The function `GameLogic::processGame`. -/
def processGame (env : Env) (fuel : Nat) (g : GameLogic) (keyInput : KeyInput) (now : Nat) :
    Option GameLogic :=
  moveGoat env fuel (moveBug env g now) keyInput

/-- The function `GameLogic::processStartScreen`. -/
def processStartScreen (g : GameLogic) (keyInput : KeyInput) (now : Nat) : GameLogic :=
  if keyInput.enter then { initGame g now with gameState := PLAYING } else g

/-- The function `GameLogic::process`: `unfinished` when a loop of `moveGoat`
has not ended within the fuel. -/
def process (env : Env) (fuel : Nat) (g : GameLogic) (keyInput : KeyInput) (now : Nat) :
    Outcome :=
  if g.gameState = START_SCREEN then
    Outcome.done (processStartScreen g keyInput now)
  else if g.gameState = PLAYING then
    match processGame env fuel g keyInput now with
    | some g1 => Outcome.done g1
    | none => Outcome.unfinished
  else
    Outcome.thrown "Urecognised game state"

/-- The state after a run of consecutive `moveBug` ticks, one per clock
reading of the list. -/
def moveBugTicks (env : Env) : GameLogic → List Nat → GameLogic
  | g, [] => g
  | g, now :: rest => moveBugTicks env (moveBug env g now) rest

/-! ## A concrete instance of the collaborators

Rational stand-ins, used to evaluate the definitions on concrete inputs. -/

/-- Integer square root by bisection on `[lo, hi)`, with fuel. -/
def isqrtAux (n : Nat) : Nat → Nat → Nat → Nat
  | 0, lo, _ => lo
  | fuel + 1, lo, hi =>
    if hi ≤ lo + 1 then lo
    else
      let mid := (lo + hi) / 2
      if mid * mid ≤ n then isqrtAux n fuel mid hi else isqrtAux n fuel lo mid

/-- Square root to four decimals, rounded down; `0` on negative arguments. -/
def sqrtQ (q : ℚ) : ℚ :=
  let n := (Int.floor (q * 100000000)).toNat
  (isqrtAux n 64 0 (n + 1) : ℚ) / 10000

/-- Cosine by its Taylor polynomial of degree 8. -/
def cosQ (a : ℚ) : ℚ :=
  1 - a ^ 2 / 2 + a ^ 4 / 24 - a ^ 6 / 720 + a ^ 8 / 40320

/-- Sine by its Taylor polynomial of degree 9. -/
def sinQ (a : ℚ) : ℚ :=
  a - a ^ 3 / 6 + a ^ 5 / 120 - a ^ 7 / 5040 + a ^ 9 / 362880

/-- Rounding to two decimals, `floor (100 x + 0.5) / 100`. -/
def round2Q (q : ℚ) : ℚ :=
  (Int.floor (100 * q + 1 / 2) : ℚ) / 100

/-- A collision test for the instance: the point lies in the box of half
width `1/2` around the offset of the object. -/
def boxHit (o : SceneObject) (x y z : ℚ) : Bool :=
  decide (o.offset.x - 1 / 2 ≤ x ∧ x ≤ o.offset.x + 1 / 2) &&
  decide (o.offset.y - 1 / 2 ≤ y ∧ y ≤ o.offset.y + 1 / 2) &&
  decide (o.offset.z - 1 / 2 ≤ z ∧ z ≤ o.offset.z + 1 / 2)

/-- A collision test for the instance: the goat, moved one unit ahead along
its yaw, lies in the box of the other object. -/
def noseHit (a b : SceneObject) : Bool :=
  boxHit b (a.offset.x - cosQ a.rotation.y) a.offset.y (a.offset.z - sinQ a.rotation.y)

/-- The concrete instance. -/
def sampleEnv : Env where
  sqrt := sqrtQ
  cos := cosQ
  sin := sinQ
  ROUND_2_DECIMAL := round2Q
  collidesWithPoint := boxHit
  collidesWithSceneObject := noseHit

/-- Bounding boxes without geometry, for the sample objects. -/
def noBoxes : BoundingBoxes :=
  { numBoxes := 0, offset := ⟨0, 0, 0⟩, rotation := ⟨0, 0, 0⟩, vertices := [],
    facesVertexIndexes := [] }

/-- A scene object at a position, with a yaw. -/
def objectAt (x y z yaw : ℚ) : SceneObject :=
  { offset := ⟨x, y, z⟩, rotation := ⟨0, yaw, 0⟩, boundingBoxes := noBoxes }

/-- A game state after `initGame` at clock `0`: the tree where the constructor
puts it, the game in progress. -/
def sampleGame : GameLogic :=
  { goat := objectAt (-12 / 10) GROUND_Y (-4) 0
    bug := objectAt (5 / 10) (GROUND_Y + BUG_FLIGHT_HEIGHT) (-18) 0
    tree := objectAt (26 / 10) GROUND_Y (-8) (-5 / 10)
    gameState := PLAYING
    bugState := BugState.FLYING_STRAIGHT
    bugPreviousState := BugState.FLYING_STRAIGHT
    bugFramesInCurrentState := 1
    bugVerticalSpeed := 5 / 100
    startTicks := 0
    seconds := 0
    played := [] }

/-- The sample game with the bug right above the goat. -/
def closeGame : GameLogic :=
  { sampleGame with bug := objectAt (-12 / 10) (GROUND_Y + BUG_FLIGHT_HEIGHT) (-4) 0 }

/-- The sample game during an ascent, the bug inside the box of the goat;
the session started at clock `1000`. -/
def ascentCatch : GameLogic :=
  { sampleGame with
    bug := objectAt (-12 / 10) (-8 / 10) (-4) 0
    bugState := BugState.DIVING_UP
    bugPreviousState := BugState.DIVING_UP
    bugFramesInCurrentState := 3
    startTicks := 1000 }

/-- The sample game with the goat facing the tree, one step short of it. -/
def treeGame : GameLogic :=
  { sampleGame with goat := objectAt (412 / 100) GROUND_Y (-8) 0 }

/-- The key input with only `up` pressed. -/
def upKey : KeyInput :=
  { left := false, right := false, up := true, down := false, enter := false }

/-! ## Constructor and runs of process -/

/-- The assignments of the constructor `GameLogic::GameLogic()` to the
modelled members; `raw` holds the scene objects as loaded and the members the
constructor leaves unassigned (the state of the bug and its frame counter). -/
def construct (env : Env) (raw : GameLogic) : GameLogic :=
  { raw with
    bugVerticalSpeed := env.ROUND_2_DECIMAL (BUG_FLIGHT_HEIGHT / (BUG_DIVE_DURATION : ℚ))
    tree := { raw.tree with
      offset := { x := 26 / 10, y := GROUND_Y, z := -8 }
      rotation := { x := 0, y := -5 / 10, z := 0 } }
    gameState := START_SCREEN
    startTicks := 0
    seconds := 0
    played := [] }

/-- A sequence of calls of `process`, one per entry of the list: the fuel of
the call, its key input and its clock reading.  The sequence stops at the
first call that does not end with `done`. -/
def processAll (env : Env) : GameLogic → List (Nat × KeyInput × Nat) → Outcome
  | g, [] => Outcome.done g
  | g, (fuel, keyInput, now) :: rest =>
    match process env fuel g keyInput now with
    | Outcome.done g1 => processAll env g1 rest
    | Outcome.thrown what => Outcome.thrown what
    | Outcome.unfinished => Outcome.unfinished

/-- The key input with only `enter` pressed. -/
def enterKey : KeyInput :=
  { left := false, right := false, up := false, down := false, enter := true }

/-- The sample game on the start screen. -/
def startA : GameLogic :=
  { sampleGame with gameState := START_SCREEN }

/-- The sample game on the start screen, the goat and the bug turned. -/
def startB : GameLogic :=
  { sampleGame with
    gameState := START_SCREEN
    goat := objectAt (-12 / 10) GROUND_Y (-4) 1
    bug := objectAt (5 / 10) (GROUND_Y + BUG_FLIGHT_HEIGHT) (-18) (-3) }

/-- An object on the near edge of the arena of the bug. -/
def edgeObject : SceneObject :=
  objectAt 0 GROUND_Y (-1) 0

/-! ## getTokens (small3d/src/GetTokens.cpp)

A `std::string` is the list of its characters; the array `tokens` is the list
of the cells the function writes, in the order of their indexes. -/

/-- The offset of the first `sep` in a list of characters, if there is one. -/
def firstIndex (sep : Char) : List Char → Option Nat
  | [] => none
  | c :: cs => if c = sep then some 0 else (firstIndex sep cs).map (· + 1)

/-- The member `input.find(sep, pos)` of `std::string`: the first index from
`pos` on that holds `sep`; `none` stands for `npos`. -/
def find (input : List Char) (sep : Char) (pos : Nat) : Option Nat :=
  (firstIndex sep (input.drop pos)).map (pos + ·)

/-- The member `input.substr(pos, len)` of `std::string`, for `pos` within the
string. -/
def substr (input : List Char) (pos len : Nat) : List Char :=
  (input.drop pos).take len

/-- Lines 21-25: the first loop of `getTokens`, from `count = 0`. -/
def countLoop (input : List Char) (sep : Char) : Nat :=
  input.foldl (fun count c => if c = sep then count + 1 else count) 0

/-- Lines 28-38: the second loop of `getTokens`, with `remaining` iterations to
go (`idx = count - remaining`) and the current value of `curPos`; the result is
the list of the tokens these iterations write.  When `find` returns `npos`,
`substr` takes the rest of the string and `curPos = npos + 1` wraps to 0. -/
def fillTokens (input : List Char) (sep : Char) : Nat → Nat → List (List Char)
  | 0, _ => []
  | remaining + 1, curPos =>
    if remaining = 0 then
      [input.drop curPos]
    else
      match find input sep curPos with
      | some foundPos =>
        substr input curPos (foundPos - curPos) :: fillTokens input sep remaining (foundPos + 1)
      | none => input.drop curPos :: fillTokens input sep remaining 0

/-- The function `getTokens`: the count it returns and the tokens it writes. -/
def getTokens (input : List Char) (sep : Char) : Nat × List (List Char) :=
  let count := countLoop input sep + 1
  (count, fillTokens input sep count 0)

/-! ## Collision queries of BoundingBoxes

BoundingBoxes.hpp declares `pointIsWithin` and `boxesAreWithin`; their bodies
are not among the sources. -/

/-- Modelled from the spec: the rotation about the x axis by the angle `a`
(the renderer's `rotateX`, not among the sources). -/
def rotateX (env : Env) (a : ℚ) (v : Vec3) : Vec3 :=
  { x := v.x, y := env.cos a * v.y - env.sin a * v.z, z := env.sin a * v.y + env.cos a * v.z }

/-- Modelled from the spec: the rotation about the y axis by the angle `a`
(the renderer's `rotateY`, not among the sources). -/
def rotateY (env : Env) (a : ℚ) (v : Vec3) : Vec3 :=
  { x := env.cos a * v.x + env.sin a * v.z, y := v.y, z := env.cos a * v.z - env.sin a * v.x }

/-- Modelled from the spec: the rotation about the z axis by the angle `a`
(the renderer's `rotateZ`, not among the sources). -/
def rotateZ (env : Env) (a : ℚ) (v : Vec3) : Vec3 :=
  { x := env.cos a * v.x - env.sin a * v.y, y := env.sin a * v.x + env.cos a * v.y, z := v.z }

/-- Modelled from the spec: the placement of a model-space point of a box
set in the world, the body of which is not among the sources: the rotation
of the set, applied in the order X, Y, Z, then its offset. -/
def toWorld (env : Env) (set : BoundingBoxes) (v : Vec3) : Vec3 :=
  let r := rotateZ env set.rotation.z (rotateY env set.rotation.y (rotateX env set.rotation.x v))
  { x := r.x + set.offset.x, y := r.y + set.offset.y, z := r.z + set.offset.z }

/-- Modelled from the spec: a world point expressed in the local space of a
box set, the body of which is not among the sources: the offset and the
rotation of the set applied in reverse. -/
def toLocal (env : Env) (set : BoundingBoxes) (p : Vec3) : Vec3 :=
  let q : Vec3 := { x := p.x - set.offset.x, y := p.y - set.offset.y, z := p.z - set.offset.z }
  rotateX env (-set.rotation.x) (rotateY env (-set.rotation.y) (rotateZ env (-set.rotation.z) q))

/-- The component of a point on an axis: 0 for x, 1 for y, 2 for z. -/
def coord (p : Vec3) (axis : Nat) : ℚ :=
  match axis with
  | 0 => p.x
  | 1 => p.y
  | _ => p.z

/-- The point a vertex (a `vector<float>` of three components) stands for. -/
def vertexPoint (v : List ℚ) : Vec3 :=
  { x := v.getD 0 0, y := v.getD 1 0, z := v.getD 2 0 }

/-- Modelled from the spec: the boxes of a set, eight consecutive vertices
each, `numBoxes` of them. -/
def boxesOf (set : BoundingBoxes) : List (List (List ℚ)) :=
  (List.range set.numBoxes.toNat).map fun idx => (set.vertices.drop (8 * idx)).take 8

/-- The values of the vertices of a box on an axis. -/
def axisValues (box : List (List ℚ)) (axis : Nat) : List ℚ :=
  box.map fun v => coord (vertexPoint v) axis

/-- The smallest value of a list, by a running minimum from its first entry. -/
def lowest : List ℚ → Option ℚ
  | [] => none
  | a :: rest => some (rest.foldl min a)

/-- The largest value of a list, by a running maximum from its first entry. -/
def highest : List ℚ → Option ℚ
  | [] => none
  | a :: rest => some (rest.foldl max a)

/-- Modelled from the spec: the test `min ≤ coord ≤ max` on one axis, with the
minimum and the maximum of the vertices of the box on that axis. -/
def axisWithin (box : List (List ℚ)) (axis : Nat) (c : ℚ) : Bool :=
  match lowest (axisValues box axis), highest (axisValues box axis) with
  | some lo, some hi => decide (lo ≤ c) && decide (c ≤ hi)
  | _, _ => false

/-- Modelled from the spec: the containment test of one box, on all three
axes. -/
def boxContains (box : List (List ℚ)) (p : Vec3) : Bool :=
  axisWithin box 0 (coord p 0) && axisWithin box 1 (coord p 1) && axisWithin box 2 (coord p 2)

/-- Modelled from the spec: `BoundingBoxes::pointIsWithin`, declared in
BoundingBoxes.hpp, the body of which is not among the sources.  The point is
taken to the local space of the set and tested against each box; true if any
box contains it. -/
def pointIsWithin (env : Env) (set : BoundingBoxes) (pointX pointY pointZ : ℚ) : Bool :=
  (boxesOf set).any fun box =>
    boxContains box (toLocal env set { x := pointX, y := pointY, z := pointZ })

/-- Modelled from the spec: `BoundingBoxes::boxesAreWithin`, declared in
BoundingBoxes.hpp, the body of which is not among the sources.  True if any
vertex of the other set, placed by the offset and rotation of that set, is
within this set. -/
def boxesAreWithin (env : Env) (set otherBoxes : BoundingBoxes) : Bool :=
  otherBoxes.vertices.any fun v =>
    let w := toWorld env otherBoxes (vertexPoint v)
    pointIsWithin env set w.x w.y w.z

/-- The eight vertices of the cube of half width `h` around the origin. -/
def cubeVertices (h : ℚ) : List (List ℚ) :=
  [[-h, -h, -h], [-h, -h, h], [-h, h, -h], [-h, h, h],
   [h, -h, -h], [h, -h, h], [h, h, -h], [h, h, h]]

/-- A set of one box, the cube of half width `h` around the origin, not
moved and not turned. -/
def cubeSet (h : ℚ) : BoundingBoxes :=
  { numBoxes := 1, offset := ⟨0, 0, 0⟩, rotation := ⟨0, 0, 0⟩, vertices := cubeVertices h,
    facesVertexIndexes :=
      [[0, 1, 3, 2], [4, 6, 7, 5], [0, 4, 5, 1], [2, 3, 7, 6], [0, 2, 6, 4], [1, 5, 7, 3]] }

/-- The sample game with the goat five units along x from the bug and the
bug one turn step short of a full rotation. -/
def turnGame : GameLogic :=
  { sampleGame with
    goat := objectAt 2 GROUND_Y (-10) 0
    bug := objectAt (-3) (GROUND_Y + BUG_FLIGHT_HEIGHT) (-10) (-624 / 100) }

/-! ## Texture registry (small3d/src/Renderer.cpp)

The member `textures` of `Renderer`, an `unordered_map<string, GLuint>`, is
the list of its (name, handle) pairs. -/

/-- The contents of the map `textures`. -/
abbrev Textures := List (String × Nat)

/-- The call `textures->find(name)`: the handle of the pair found, `none` for
`textures->end()`. -/
def findTexture (textures : Textures) (name : String) : Option Nat :=
  textures.lookup name

/-- The call `textures->insert(make_pair(name, textureHandle))`: a pair is
added only when the map holds no pair with that name. -/
def insertTexture (textures : Textures) (name : String) (textureHandle : Nat) : Textures :=
  match findTexture textures name with
  | some _ => textures
  | none => (name, textureHandle) :: textures

/-- The call `textures->erase(name)`. -/
def eraseTexture (textures : Textures) (name : String) : Textures :=
  textures.filter fun pair => pair.1 != name

/-- The function `Renderer::generateTexture`, as far as the map goes:
`textureHandle` is the handle `glGenTextures` writes; the result is the handle
returned and the map after the call. -/
def generateTexture (textures : Textures) (name : String) (textureHandle : Nat) :
    Nat × Textures :=
  (textureHandle, insertTexture textures name textureHandle)

/-- The function `Renderer::deleteTexture`, as far as the map goes. -/
def deleteTexture (textures : Textures) (name : String) : Textures :=
  match findTexture textures name with
  | some _ => eraseTexture textures name
  | none => textures

/-- The function `Renderer::getTextureHandle`. -/
def getTextureHandle (textures : Textures) (name : String) : Nat :=
  match findTexture textures name with
  | some handle => handle
  | none => 0

/-! ## moveGoat in rounded arithmetic

The steps of `moveGoat` with the value of every float constant and the result
of every float operation rounded by a function `fl`.  With `fl` the identity
these are the steps of the section `moveGoat`; with `fl` the rounding
`float32` they are the steps in the arithmetic of the machine. -/

/-- The nearest integer, ties to the even one. -/
def roundHalfEven (x : ℚ) : ℤ :=
  let f := Int.floor x
  if x - f < 1 / 2 then f
  else if 1 / 2 < x - f then f + 1
  else if f % 2 = 0 then f else f + 1

/-- The nearest value of the IEEE 754 binary32 format (24 bits of precision,
ties to even, least exponent -126); values beyond the largest finite float
do not occur here and are not treated. -/
def float32 (q : ℚ) : ℚ :=
  if q = 0 then 0
  else
    let ulp : ℚ := (2 : ℚ) ^ (max (Int.log 2 |q|) (-126) - 23)
    (roundHalfEven (q / ulp) : ℚ) * ulp

/-- The statement `goat->rotation.y -= GOAT_ROTATION_SPEED`, rounded. -/
def yawMinusRounded (fl : ℚ → ℚ) (goat : SceneObject) : SceneObject :=
  { goat with
    rotation := { goat.rotation with y := fl (goat.rotation.y - fl GOAT_ROTATION_SPEED) } }

/-- The statement `goat->rotation.y += GOAT_ROTATION_SPEED`, rounded. -/
def yawPlusRounded (fl : ℚ → ℚ) (goat : SceneObject) : SceneObject :=
  { goat with
    rotation := { goat.rotation with y := fl (goat.rotation.y + fl GOAT_ROTATION_SPEED) } }

/-- The pair of statements `goat->offset.x -= cos(goat->rotation.y) * GOAT_SPEED`
and `goat->offset.z -= sin(goat->rotation.y) * GOAT_SPEED`, rounded. -/
def stepForwardRounded (fl : ℚ → ℚ) (env : Env) (goat : SceneObject) : SceneObject :=
  let x1 := fl (goat.offset.x - fl (env.cos goat.rotation.y * fl GOAT_SPEED))
  let z1 := fl (goat.offset.z - fl (env.sin goat.rotation.y * fl GOAT_SPEED))
  { goat with offset := { goat.offset with x := x1, z := z1 } }

/-- The pair of statements `goat->offset.x += cos(goat->rotation.y) * GOAT_SPEED`
and `goat->offset.z += sin(goat->rotation.y) * GOAT_SPEED`, rounded. -/
def stepBackRounded (fl : ℚ → ℚ) (env : Env) (goat : SceneObject) : SceneObject :=
  let x1 := fl (goat.offset.x + fl (env.cos goat.rotation.y * fl GOAT_SPEED))
  let z1 := fl (goat.offset.z + fl (env.sin goat.rotation.y * fl GOAT_SPEED))
  { goat with offset := { goat.offset with x := x1, z := z1 } }

/-- Lines 118-141 in rounded arithmetic. -/
def turnGoatRounded (fl : ℚ → ℚ) (env : Env) (fuel : Nat) (tree goat : SceneObject)
    (keyInput : KeyInput) : Option SceneObject :=
  if keyInput.left then
    (rollback env tree (yawPlusRounded fl) fuel (yawMinusRounded fl goat)).map fun p =>
      if p.rotation.y < -(fl FULL_ROTATION) then
        { p with rotation := { p.rotation with y := 0 } }
      else p
  else if keyInput.right then
    (rollback env tree (yawMinusRounded fl) fuel (yawPlusRounded fl goat)).map fun p =>
      if p.rotation.y > fl FULL_ROTATION then
        { p with rotation := { p.rotation with y := 0 } }
      else p
  else some goat

/-- Lines 143-166 in rounded arithmetic. -/
def walkGoatRounded (fl : ℚ → ℚ) (env : Env) (fuel : Nat) (tree goat : SceneObject)
    (keyInput : KeyInput) : Option SceneObject :=
  if keyInput.up then
    rollback env tree (stepBackRounded fl env) fuel (stepForwardRounded fl env goat)
  else if keyInput.down then
    rollback env tree (stepForwardRounded fl env) fuel (stepBackRounded fl env goat)
  else some goat

/-- The function `GameLogic::moveGoat` in rounded arithmetic; `none` when one
of its loops has not ended within the fuel.  The bounds of the clamp are
whole numbers, which the rounding leaves as they are. -/
def moveGoatRounded (fl : ℚ → ℚ) (env : Env) (fuel : Nat) (g : GameLogic)
    (keyInput : KeyInput) : Option GameLogic :=
  match turnGoatRounded fl env fuel g.tree g.goat keyInput with
  | none => none
  | some goat1 =>
    match walkGoatRounded fl env fuel g.tree goat1 keyInput with
    | none => none
    | some goat2 => some { g with goat := clampGoat goat2 }

/-- The key input with only `down` pressed. -/
def downKey : KeyInput :=
  { left := false, right := false, up := false, down := true, enter := false }

/-- The sample game with the goat at x = 1, z = -2, its back one step short of
the tree. -/
def backGame : GameLogic :=
  { sampleGame with
    goat := objectAt 1 GROUND_Y (-2) 0
    tree := objectAt (52 / 100) GROUND_Y (-2) 0 }

/-- The sample game with the goat at x = 1, z = -2, facing the tree one step
short of it. -/
def frontGame : GameLogic :=
  { sampleGame with
    goat := objectAt 1 GROUND_Y (-2) 0
    tree := objectAt (-52 / 100) GROUND_Y (-2) 0 }

/-! ## Phases of a dive -/

/-- What holds `k` ticks after the tick that started a dive: the part of the
state that drives the dive, for `k` from `0` to `32`. -/
def divePhase (k : Nat) (s : GameLogic) : Prop :=
  if k = 0 then
    s.bugState = BugState.DIVING_DOWN ∧ s.bugPreviousState ≠ BugState.DIVING_DOWN
  else if k ≤ 15 then
    s.bugState = BugState.DIVING_DOWN ∧ s.bugPreviousState = BugState.DIVING_DOWN ∧
      s.bugFramesInCurrentState = k
  else if k = 16 then
    s.bugState = BugState.DIVING_UP ∧ s.bugPreviousState = BugState.DIVING_DOWN
  else if k ≤ 31 then
    s.bugState = BugState.DIVING_UP ∧ s.bugPreviousState = BugState.DIVING_UP ∧
      s.bugFramesInCurrentState = (k : Int) - 16
  else
    s.bugState = BugState.FLYING_STRAIGHT ∧ s.bug.offset.y = GROUND_Y + BUG_FLIGHT_HEIGHT

/-- The number of vertical steps the bug is below the flight height `j`
ticks after the tick that started a dive. -/
def diveDepth (j : Nat) : Nat :=
  if j ≤ 15 then j + 1 else 31 - j

/-- What holds `j` ticks after the tick that started a dive, altitude
included. -/
def diveAltitude (j : Nat) (s : GameLogic) : Prop :=
  divePhase j s ∧
    s.bug.offset.y = GROUND_Y + BUG_FLIGHT_HEIGHT - (diveDepth j : ℚ) * s.bugVerticalSpeed

/-- The invariant of the flight of the bug: not diving at the flight height,
or in a dive at the altitude of its phase. -/
def flightInv (s : GameLogic) : Prop :=
  ((s.bugState = BugState.FLYING_STRAIGHT ∨ s.bugState = BugState.TURNING) ∧
      s.bug.offset.y = GROUND_Y + BUG_FLIGHT_HEIGHT) ∨
    ∃ j : Nat, j ≤ 31 ∧ diveAltitude j s

/-! ## Lemmas on the stages of moveBug -/

section Stages

variable (env : Env) (g : GameLogic) (now : Nat)

theorem countFrames_bugState : (countFrames g).bugState = g.bugState := by
  unfold countFrames; split <;> rfl

theorem countFrames_bugPreviousState : (countFrames g).bugPreviousState = g.bugState := by
  unfold countFrames; split <;> rfl

theorem countFrames_frames :
    (countFrames g).bugFramesInCurrentState =
      if g.bugState = g.bugPreviousState then g.bugFramesInCurrentState + 1 else 1 := by
  unfold countFrames; split <;> rfl

theorem countFrames_goat : (countFrames g).goat = g.goat := by
  unfold countFrames; split <;> rfl

theorem countFrames_bug : (countFrames g).bug = g.bug := by
  unfold countFrames; split <;> rfl

theorem countFrames_gameState : (countFrames g).gameState = g.gameState := by
  unfold countFrames; split <;> rfl

theorem countFrames_seconds : (countFrames g).seconds = g.seconds := by
  unfold countFrames; split <;> rfl

theorem countFrames_startTicks : (countFrames g).startTicks = g.startTicks := by
  unfold countFrames; split <;> rfl

theorem countFrames_played : (countFrames g).played = g.played := by
  unfold countFrames; split <;> rfl

theorem decideBugState_bugPreviousState (d : ℚ) (dot : Option ℚ) :
    (decideBugState env now d dot g).bugPreviousState = g.bugPreviousState := by
  unfold decideBugState
  dsimp only
  split_ifs <;> rfl

theorem decideBugState_frames (d : ℚ) (dot : Option ℚ) :
    (decideBugState env now d dot g).bugFramesInCurrentState = g.bugFramesInCurrentState := by
  unfold decideBugState
  dsimp only
  split_ifs <;> rfl

theorem decideBugState_goat (d : ℚ) (dot : Option ℚ) :
    (decideBugState env now d dot g).goat = g.goat := by
  unfold decideBugState
  dsimp only
  split_ifs <;> rfl

/-- The state chosen by "Bug state: decide", as a function of the state, the
frame counter, the distance and the alignment. -/
theorem decideBugState_bugState (d : ℚ) (dot : Option ℚ) :
    (decideBugState env now d dot g).bugState =
      if g.bugState = BugState.DIVING_DOWN then
        (if g.bugFramesInCurrentState > BUG_DIVE_DURATION / 2 then BugState.DIVING_UP
         else BugState.DIVING_DOWN)
      else if g.bugState = BugState.DIVING_UP then
        (if g.bugFramesInCurrentState > BUG_DIVE_DURATION / 2 then BugState.FLYING_STRAIGHT
         else BugState.DIVING_UP)
      else if d > BUG_START_DIVE_DISTANCE then
        (if flt dot (98 / 100) then BugState.TURNING else BugState.FLYING_STRAIGHT)
      else BugState.DIVING_DOWN := by
  unfold decideBugState
  dsimp only
  split_ifs <;> first | rfl | simp_all

theorem representBugState_bugState : (representBugState g).bugState = g.bugState := rfl

theorem moveBugFrom_bugState (rx rz : Option ℚ) :
    (moveBugFrom env g now rx rz).bugState =
      (decideBugState env now (bugDistance env g) (dotProduct env g rx rz)
        (countFrames g)).bugState := rfl

theorem moveBugFrom_bugPreviousState (rx rz : Option ℚ) :
    (moveBugFrom env g now rx rz).bugPreviousState = g.bugState := by
  show (decideBugState env now _ _ (countFrames g)).bugPreviousState = _
  rw [decideBugState_bugPreviousState, countFrames_bugPreviousState]

theorem moveBugFrom_frames (rx rz : Option ℚ) :
    (moveBugFrom env g now rx rz).bugFramesInCurrentState =
      if g.bugState = g.bugPreviousState then g.bugFramesInCurrentState + 1 else 1 := by
  show (decideBugState env now _ _ (countFrames g)).bugFramesInCurrentState = _
  rw [decideBugState_frames, countFrames_frames]

/-- The clamp of the bug puts any position into the arena. -/
theorem clampBug_arena (b : SceneObject) :
    MIN_Z ≤ (clampBug b).offset.z ∧ (clampBug b).offset.z ≤ MAX_Z ∧
      (clampBug b).offset.z ≤ (clampBug b).offset.x ∧
      (clampBug b).offset.x ≤ -(clampBug b).offset.z := by
  simp only [clampBug, MIN_Z, MAX_Z]
  refine ⟨?_, ?_, ?_, ?_⟩ <;> split_ifs <;> linarith

theorem decideBugState_offset_y (d : ℚ) (dot : Option ℚ) :
    (decideBugState env now d dot g).bug.offset.y =
      if g.bugState = BugState.DIVING_UP ∧ g.bugFramesInCurrentState > BUG_DIVE_DURATION / 2
      then GROUND_Y + BUG_FLIGHT_HEIGHT else g.bug.offset.y := by
  unfold decideBugState
  dsimp only
  split_ifs <;> first | rfl | simp_all

theorem representBugState_offset_y :
    (representBugState g).bug.offset.y =
      if g.bugState = BugState.DIVING_DOWN then g.bug.offset.y - g.bugVerticalSpeed
      else if g.bugState = BugState.DIVING_UP then g.bug.offset.y + g.bugVerticalSpeed
      else g.bug.offset.y := by
  unfold representBugState
  dsimp only
  split_ifs <;> first | rfl | simp_all

theorem moveBugFrom_offset_y (rx rz : Option ℚ) :
    (moveBugFrom env g now rx rz).bug.offset.y =
      (representBugState (decideBugState env now (bugDistance env g)
        (dotProduct env g rx rz) (countFrames g))).bug.offset.y := rfl

/-- The state after a tick, from the state, the memory, the frame counter, the
distance and the alignment at its start. -/
theorem moveBug_bugState :
    (moveBug env g now).bugState =
      if g.bugState = BugState.DIVING_DOWN then
        (if (if g.bugState = g.bugPreviousState then g.bugFramesInCurrentState + 1 else 1)
            > BUG_DIVE_DURATION / 2 then BugState.DIVING_UP else BugState.DIVING_DOWN)
      else if g.bugState = BugState.DIVING_UP then
        (if (if g.bugState = g.bugPreviousState then g.bugFramesInCurrentState + 1 else 1)
            > BUG_DIVE_DURATION / 2 then BugState.FLYING_STRAIGHT else BugState.DIVING_UP)
      else if bugDistance env g > BUG_START_DIVE_DISTANCE then
        (if flt (dotPosDir env g) (98 / 100) then BugState.TURNING
         else BugState.FLYING_STRAIGHT)
      else BugState.DIVING_DOWN := by
  unfold moveBug
  rw [moveBugFrom_bugState, decideBugState_bugState, countFrames_bugState, countFrames_frames]
  rfl

/-- The tick that ends the ascent puts the bug at the flight height. -/
theorem moveBug_offset_y_end_of_dive (hUp : g.bugState = BugState.DIVING_UP)
    (hFrames : (if g.bugState = g.bugPreviousState then g.bugFramesInCurrentState + 1 else 1)
      > BUG_DIVE_DURATION / 2) :
    (moveBug env g now).bug.offset.y = GROUND_Y + BUG_FLIGHT_HEIGHT := by
  unfold moveBug
  rw [moveBugFrom_offset_y, representBugState_offset_y, decideBugState_bugState,
    decideBugState_offset_y, countFrames_bugState, countFrames_frames]
  have hF : BUG_DIVE_DURATION / 2 <
      (if BugState.DIVING_UP = g.bugPreviousState then g.bugFramesInCurrentState + 1
       else 1) := by
    simpa [hUp] using hFrames
  simp [hUp, hF, not_le.mpr hF]

/-- One tick moves a dive from phase `k` to phase `k + 1`. -/
theorem divePhase_step (k : Nat) (hk : k < 32) (h : divePhase k g) :
    divePhase (k + 1) (moveBug env g now) := by
  have hprev := (moveBugFrom_bugPreviousState env g now (goatRelX env g) (goatRelZ env g))
  have hfr := (moveBugFrom_frames env g now (goatRelX env g) (goatRelZ env g))
  have hst := moveBug_bugState env g now
  change (moveBug env g now).bugPreviousState = _ at hprev
  change (moveBug env g now).bugFramesInCurrentState = _ at hfr
  unfold divePhase at h ⊢
  by_cases h0 : k = 0
  · subst h0
    simp only [if_true] at h
    obtain ⟨hs, hp⟩ := h
    have hne : ¬ BugState.DIVING_DOWN = g.bugPreviousState := fun e => hp e.symm
    simp [hst, hprev, hfr, hs, hne, BUG_DIVE_DURATION]
  · by_cases h15 : k ≤ 15
    · simp only [h0, h15, if_true, if_false] at h
      obtain ⟨hs, hp, hf⟩ := h
      by_cases h14 : k + 1 ≤ 15
      · have : ¬ (15 : Int) < k + 1 := by omega
        simp [hst, hprev, hfr, hs, hp, hf, h14, BUG_DIVE_DURATION, this]
      · have hk15 : k = 15 := by omega
        subst hk15
        simp [hst, hprev, hfr, hs, hp, hf, BUG_DIVE_DURATION]
    · by_cases h16 : k = 16
      · subst h16
        simp only [if_true, if_false] at h
        simp at h
        obtain ⟨hs, hp⟩ := h
        simp [hst, hprev, hfr, hs, hp, BUG_DIVE_DURATION]
      · have hk31 : k ≤ 31 := by omega
        simp only [h0, h15, h16, hk31, if_true, if_false] at h
        obtain ⟨hs, hp, hf⟩ := h
        by_cases h30 : k + 1 ≤ 31
        · have h1 : ¬ k + 1 ≤ 15 := by omega
          have h2 : ¬ k + 1 = 16 := by omega
          have h3 : ¬ (15 : Int) < (k : Int) - 16 + 1 := by omega
          simp [hst, hprev, hfr, hs, hp, hf, h1, h2, h30, BUG_DIVE_DURATION, h3]
          omega
        · have hk : k = 31 := by omega
          subst hk
          have hend := moveBug_offset_y_end_of_dive env g now hs
            (by simp [hs, hp, hf, BUG_DIVE_DURATION])
          simp [hst, hs, hp, hf, BUG_DIVE_DURATION, hend]

/-- A run of ticks moves a dive from phase `k` on by its length. -/
theorem divePhase_ticks (clocks : List Nat) :
    ∀ (k : Nat) (s : GameLogic), divePhase k s → k + clocks.length ≤ 32 →
      divePhase (k + clocks.length) (moveBugTicks env s clocks) := by
  induction clocks with
  | nil => intro k s h _; simpa [moveBugTicks] using h
  | cons c rest ih =>
    intro k s h hk
    simp only [List.length_cons] at hk
    have h1 := divePhase_step env s c k (by omega) h
    have h2 := ih (k + 1) (moveBug env s c) h1 (by omega)
    simp only [List.length_cons, moveBugTicks]
    have e : k + (rest.length + 1) = k + 1 + rest.length := by omega
    rw [e]
    exact h2

theorem countFrames_bugHitsGoat : bugHitsGoat env (countFrames g) = bugHitsGoat env g := by
  unfold bugHitsGoat
  rw [countFrames_goat, countFrames_bug]

theorem decideBugState_gameState (d : ℚ) (dot : Option ℚ) :
    (decideBugState env now d dot g).gameState =
      if (g.bugState = BugState.DIVING_DOWN ∨ g.bugState = BugState.DIVING_UP) ∧
          bugHitsGoat env g = true
      then START_SCREEN else g.gameState := by
  unfold decideBugState
  dsimp only
  split_ifs <;> first | rfl | simp_all

theorem decideBugState_seconds (d : ℚ) (dot : Option ℚ) :
    (decideBugState env now d dot g).seconds =
      if g.bugState = BugState.DIVING_DOWN ∧ bugHitsGoat env g = true
      then ticksSince now g.startTicks / 1000 else g.seconds := by
  unfold decideBugState
  dsimp only
  split_ifs <;> first | rfl | simp_all

theorem decideBugState_played (d : ℚ) (dot : Option ℚ) :
    (decideBugState env now d dot g).played =
      if g.bugState = BugState.DIVING_DOWN ∧ bugHitsGoat env g = true
      then g.played ++ ["bah"] else g.played := by
  unfold decideBugState
  dsimp only
  split_ifs <;> first | rfl | simp_all

/-- The game state after a tick of moveBug. -/
theorem moveBug_gameState :
    (moveBug env g now).gameState =
      if (g.bugState = BugState.DIVING_DOWN ∨ g.bugState = BugState.DIVING_UP) ∧
          bugHitsGoat env g = true
      then START_SCREEN else g.gameState := by
  show (decideBugState env now _ _ (countFrames g)).gameState = _
  rw [decideBugState_gameState, countFrames_bugState, countFrames_bugHitsGoat,
    countFrames_gameState]

/-- The stored survival time after a tick of moveBug. -/
theorem moveBug_seconds :
    (moveBug env g now).seconds =
      if g.bugState = BugState.DIVING_DOWN ∧ bugHitsGoat env g = true
      then ticksSince now g.startTicks / 1000 else g.seconds := by
  show (decideBugState env now _ _ (countFrames g)).seconds = _
  rw [decideBugState_seconds, countFrames_bugState, countFrames_bugHitsGoat,
    countFrames_seconds, countFrames_startTicks]

/-- The sounds played up to the end of a tick of moveBug. -/
theorem moveBug_played :
    (moveBug env g now).played =
      if g.bugState = BugState.DIVING_DOWN ∧ bugHitsGoat env g = true
      then g.played ++ ["bah"] else g.played := by
  show (decideBugState env now _ _ (countFrames g)).played = _
  rw [decideBugState_played, countFrames_bugState, countFrames_bugHitsGoat,
    countFrames_played]

/-- The function moveGoat changes the goat only. -/
theorem moveGoat_eq (fuel : Nat) (keyInput : KeyInput) (g1 : GameLogic)
    (h : moveGoat env fuel g keyInput = some g1) : g1 = { g with goat := g1.goat } := by
  unfold moveGoat at h
  split at h
  · exact absurd h (by simp)
  · split at h
    · exact absurd h (by simp)
    · simp only [Option.some.injEq] at h
      rw [← h]

/-- A loop of moveGoat whose condition is false at its start ends at once. -/
theorem rollback_of_free (tree : SceneObject) (undo : SceneObject → SceneObject) (n : Nat)
    (goat : SceneObject) (h : env.collidesWithSceneObject goat tree = false) :
    rollback env tree undo (n + 1) goat = some goat := by
  simp [rollback, h]

/-- A loop of moveGoat whose condition is true at its start and false after
one pass ends after that pass. -/
theorem rollback_once (tree : SceneObject) (undo : SceneObject → SceneObject) (n : Nat)
    (goat : SceneObject) (h1 : env.collidesWithSceneObject goat tree = true)
    (h2 : env.collidesWithSceneObject (undo goat) tree = false) :
    rollback env tree undo (n + 2) goat = some (undo goat) := by
  simp [rollback, h1, h2]

/-- The part "Bug state: decide" reads the alignment only when the bug is
further away than the dive distance. -/
theorem decideBugState_dot_unused (d : ℚ) (dot1 dot2 : Option ℚ)
    (hd : d ≤ BUG_START_DIVE_DISTANCE) :
    decideBugState env now d dot1 g = decideBugState env now d dot2 g := by
  have hnot : ¬ d > BUG_START_DIVE_DISTANCE := not_lt.mpr hd
  unfold decideBugState
  simp only [hnot, if_false]

theorem yawPlus_yawMinus (p : SceneObject) : yawPlus (yawMinus p) = p := by
  obtain ⟨o, ⟨rx, ry, rz⟩, b⟩ := p
  simp [yawPlus, yawMinus]

theorem yawMinus_yawPlus (p : SceneObject) : yawMinus (yawPlus p) = p := by
  obtain ⟨o, ⟨rx, ry, rz⟩, b⟩ := p
  simp [yawPlus, yawMinus]

theorem stepBack_stepForward (p : SceneObject) : stepBack env (stepForward env p) = p := by
  obtain ⟨⟨x, y, z⟩, r, b⟩ := p
  simp [stepBack, stepForward]

theorem stepForward_stepBack (p : SceneObject) : stepForward env (stepBack env p) = p := by
  obtain ⟨⟨x, y, z⟩, r, b⟩ := p
  simp [stepBack, stepForward]

/-- The clamp of the goat leaves a position inside its region as it is. -/
theorem clampGoat_of_inside (p : SceneObject)
    (h : MIN_Z + 1 ≤ p.offset.z ∧ p.offset.z ≤ MAX_Z - 1 ∧ p.offset.z ≤ p.offset.x ∧
      p.offset.x ≤ -p.offset.z) : clampGoat p = p := by
  obtain ⟨⟨x, y, z⟩, r, b⟩ := p
  obtain ⟨h1, h2, h3, h4⟩ := h
  simp only at h1 h2 h3 h4
  simp [clampGoat, not_lt.mpr h1, not_lt.mpr h2, not_lt.mpr h3, not_lt.mpr h4]

theorem sqrtQ_zero : sqrtQ 0 = 0 := by
  have h : isqrtAux 0 64 0 1 = 0 := by decide
  simp [sqrtQ, h]

theorem round2Q_zero : round2Q 0 = 0 := by
  have h : Int.floor ((1 : ℚ) / 2) = 0 := by
    rw [Int.floor_eq_iff]
    norm_num
  simp only [round2Q, mul_zero, zero_add, h]
  norm_num

/-- In the sample game with the bug above the goat the distance is zero. -/
theorem bugDistance_closeGame : bugDistance sampleEnv closeGame = 0 := by
  simp [bugDistance, closeGame, sampleGame, objectAt, sampleEnv, sqrtQ_zero, round2Q_zero]

theorem countFrames_tree (t : SceneObject) :
    countFrames { g with tree := t } = { countFrames g with tree := t } := by
  unfold countFrames
  dsimp only
  split_ifs <;> rfl

theorem decideBugState_tree (d : ℚ) (dot : Option ℚ) (t : SceneObject) :
    decideBugState env now d dot { g with tree := t } =
      { decideBugState env now d dot g with tree := t } := by
  unfold decideBugState
  have hHit : bugHitsGoat env { g with tree := t } = bugHitsGoat env g := rfl
  dsimp only
  rw [hHit]
  split_ifs <;> rfl

theorem representBugState_rotation_z :
    (representBugState g).bug.rotation.z =
      if g.bugState = BugState.TURNING then 0
      else if g.bugState = BugState.DIVING_DOWN then -BUG_DIVE_TILT
      else if g.bugState = BugState.DIVING_UP then BUG_DIVE_TILT
      else 0 := by
  unfold representBugState
  dsimp only
  split_ifs <;> rfl

/-- The roll after a tick is the one "Bug state: represent" sets for the state
after the tick. -/
theorem moveBug_rotation_z :
    (moveBug env g now).bug.rotation.z =
      if (moveBug env g now).bugState = BugState.TURNING then 0
      else if (moveBug env g now).bugState = BugState.DIVING_DOWN then -BUG_DIVE_TILT
      else if (moveBug env g now).bugState = BugState.DIVING_UP then BUG_DIVE_TILT
      else 0 := by
  show (representBugState (decideBugState env now _ _ (countFrames g))).bug.rotation.z = _
  rw [representBugState_rotation_z]
  rfl

/-- A call of process on a state whose game state is START_SCREEN or PLAYING
does not throw, and when it ends the game state is one of the two again. -/
theorem process_gameState_closed (fuel : Nat) (keyInput : KeyInput)
    (h : g.gameState = START_SCREEN ∨ g.gameState = PLAYING) :
    (∀ what : String, process env fuel g keyInput now ≠ Outcome.thrown what) ∧
      (∀ g1 : GameLogic, process env fuel g keyInput now = Outcome.done g1 →
        g1.gameState = START_SCREEN ∨ g1.gameState = PLAYING) := by
  rcases h with h | h
  · have hp : process env fuel g keyInput now =
        Outcome.done (processStartScreen g keyInput now) := by
      unfold process
      rw [if_pos h]
    rw [hp]
    refine ⟨fun what hw => by simp at hw, fun g1 hg => ?_⟩
    simp only [Outcome.done.injEq] at hg
    subst hg
    unfold processStartScreen
    split_ifs
    · right; rfl
    · left; exact h
  · have hne : g.gameState ≠ START_SCREEN := by rw [h]; decide
    have hp : process env fuel g keyInput now =
        match processGame env fuel g keyInput now with
        | some g1 => Outcome.done g1
        | none => Outcome.unfinished := by
      unfold process
      rw [if_neg hne, if_pos h]
    rw [hp]
    constructor
    · intro what hw
      split at hw <;> exact absurd hw (by simp)
    · intro g1 hg
      split at hg
      next g2 hg2 =>
        simp only [Outcome.done.injEq] at hg
        subst hg
        have hgs : g2.gameState = (moveBug env g now).gameState := by
          have := moveGoat_eq env (moveBug env g now) fuel keyInput g2 hg2
          rw [this]
        rw [hgs, moveBug_gameState, h]
        split_ifs
        · left; rfl
        · right; rfl
      next => exact absurd hg (by simp)

theorem countFrames_bugVerticalSpeed :
    (countFrames g).bugVerticalSpeed = g.bugVerticalSpeed := by
  unfold countFrames; split <;> rfl

theorem decideBugState_bugVerticalSpeed (d : ℚ) (dot : Option ℚ) :
    (decideBugState env now d dot g).bugVerticalSpeed = g.bugVerticalSpeed := by
  unfold decideBugState
  dsimp only
  split_ifs <;> rfl

theorem decideBugState_bug_rotation (d : ℚ) (dot : Option ℚ) :
    (decideBugState env now d dot g).bug.rotation = g.bug.rotation := by
  unfold decideBugState
  dsimp only
  split_ifs <;> rfl

theorem decideBugState_offset_x (d : ℚ) (dot : Option ℚ) :
    (decideBugState env now d dot g).bug.offset.x = g.bug.offset.x := by
  unfold decideBugState
  dsimp only
  split_ifs <;> rfl

theorem decideBugState_offset_z (d : ℚ) (dot : Option ℚ) :
    (decideBugState env now d dot g).bug.offset.z = g.bug.offset.z := by
  unfold decideBugState
  dsimp only
  split_ifs <;> rfl

theorem representBugState_offset_x :
    (representBugState g).bug.offset.x = g.bug.offset.x := by
  unfold representBugState
  dsimp only
  split_ifs <;> rfl

theorem representBugState_offset_z :
    (representBugState g).bug.offset.z = g.bug.offset.z := by
  unfold representBugState
  dsimp only
  split_ifs <;> rfl

theorem representBugState_rotation_y :
    (representBugState g).bug.rotation.y =
      if (if g.bugState = BugState.TURNING then g.bug.rotation.y - BUG_ROTATION_SPEED
          else g.bug.rotation.y) < -FULL_ROTATION
      then 0
      else (if g.bugState = BugState.TURNING then g.bug.rotation.y - BUG_ROTATION_SPEED
            else g.bug.rotation.y) := by
  unfold representBugState
  dsimp only
  split_ifs <;> rfl

/-- The vertical speed is not changed by a tick. -/
theorem moveBug_bugVerticalSpeed :
    (moveBug env g now).bugVerticalSpeed = g.bugVerticalSpeed := by
  show (decideBugState env now _ _ (countFrames g)).bugVerticalSpeed = _
  rw [decideBugState_bugVerticalSpeed, countFrames_bugVerticalSpeed]

/-- The yaw after a tick: the turn step when the state after the tick is
TURNING, then the wrap to 0 of a yaw below -FULL_ROTATION. -/
theorem moveBug_rotation_y :
    (moveBug env g now).bug.rotation.y =
      if (if (moveBug env g now).bugState = BugState.TURNING
          then g.bug.rotation.y - BUG_ROTATION_SPEED else g.bug.rotation.y) < -FULL_ROTATION
      then 0
      else (if (moveBug env g now).bugState = BugState.TURNING
            then g.bug.rotation.y - BUG_ROTATION_SPEED else g.bug.rotation.y) := by
  have h : (moveBug env g now).bug.rotation.y =
      (representBugState (decideBugState env now (bugDistance env g) (dotPosDir env g)
        (countFrames g))).bug.rotation.y := rfl
  rw [h, representBugState_rotation_y, decideBugState_bug_rotation, countFrames_bug]
  rfl

/-- The altitude after a tick: the altitude "Bug state: decide" leaves, lowered
or raised by the vertical speed according to the state after the tick. -/
theorem moveBug_offset_y :
    (moveBug env g now).bug.offset.y =
      if (moveBug env g now).bugState = BugState.DIVING_DOWN then
        g.bug.offset.y - g.bugVerticalSpeed
      else if (moveBug env g now).bugState = BugState.DIVING_UP then
        g.bug.offset.y + g.bugVerticalSpeed
      else if g.bugState = BugState.DIVING_UP then GROUND_Y + BUG_FLIGHT_HEIGHT
      else g.bug.offset.y := by
  have hst := moveBug_bugState env g now
  have h : (moveBug env g now).bug.offset.y =
      (representBugState (decideBugState env now (bugDistance env g) (dotPosDir env g)
        (countFrames g))).bug.offset.y := rfl
  have hs : (moveBug env g now).bugState =
      (decideBugState env now (bugDistance env g) (dotPosDir env g) (countFrames g)).bugState :=
    rfl
  rw [h, representBugState_offset_y, ← hs, decideBugState_offset_y,
    decideBugState_bugVerticalSpeed, countFrames_bugState, countFrames_frames, countFrames_bug,
    countFrames_bugVerticalSpeed]
  generalize (if g.bugState = g.bugPreviousState then g.bugFramesInCurrentState + 1
    else 1) = newFrames at hst ⊢
  by_cases hU : g.bugState = BugState.DIVING_UP
  · by_cases hF : newFrames > BUG_DIVE_DURATION / 2
    · have hfs : (moveBug env g now).bugState = BugState.FLYING_STRAIGHT := by
        rw [hst]; simp [hU, hF]
      simp [hfs, hU, hF]
    · have hdu : (moveBug env g now).bugState = BugState.DIVING_UP := by
        rw [hst]; simp [hU, hF]
      simp [hdu, hU, hF]
  · simp [hU]

/-- The part "Bug state: decide" reads the alignment only through the test
`dotPosDir < 0.98`. -/
theorem decideBugState_dot_test (d : ℚ) (dot1 dot2 : Option ℚ)
    (h : flt dot1 (98 / 100) = flt dot2 (98 / 100)) :
    decideBugState env now d dot1 g = decideBugState env now d dot2 g := by
  unfold decideBugState
  rw [h]

/-- The part "Bug state: decide" does not read the alignment while the bug
dives. -/
theorem decideBugState_dot_unused_diving (d : ℚ) (dot1 dot2 : Option ℚ)
    (h : g.bugState = BugState.DIVING_DOWN ∨ g.bugState = BugState.DIVING_UP) :
    decideBugState env now d dot1 g = decideBugState env now d dot2 g := by
  unfold decideBugState
  rcases h with h | h
  · simp only [h, if_true]
  · have hne : ¬ BugState.DIVING_UP = BugState.DIVING_DOWN := by decide
    simp only [h, hne, if_true, if_false]

theorem sqrtQ_25 : sqrtQ 25 = 5 := by
  have hf : Int.floor ((25 : ℚ) * 100000000) = 2500000000 := by
    rw [Int.floor_eq_iff]
    norm_num
  have h : isqrtAux 2500000000 64 0 2500000001 = 50000 := by decide
  simp only [sqrtQ, hf]
  have ht : (2500000000 : ℤ).toNat = 2500000000 := rfl
  rw [ht, h]
  norm_num

theorem round2Q_5 : round2Q 5 = 5 := by
  have h : Int.floor ((100 : ℚ) * 5 + 1 / 2) = 500 := by
    rw [Int.floor_eq_iff]
    norm_num
  simp only [round2Q, h]
  norm_num

theorem round2Q_neg_one : round2Q (-1) = -1 := by
  have h : Int.floor ((100 : ℚ) * (-1) + 1 / 2) = -100 := by
    rw [Int.floor_eq_iff]
    norm_num
  simp only [round2Q, h]
  norm_num

/-- In the sample game `turnGame` the distance is 5. -/
theorem bugDistance_turnGame : bugDistance sampleEnv turnGame = 5 := by
  have h : (-3 - 2 : ℚ) * (-3 - 2) + (-10 - -10) * (-10 - -10) = 25 := by norm_num
  simp only [bugDistance, turnGame, sampleGame, objectAt, sampleEnv, h, sqrtQ_25, round2Q_5]

/-- In the sample game `turnGame` the alignment is below 0.98. -/
theorem flt_dotPosDir_turnGame : flt (dotPosDir sampleEnv turnGame) (98 / 100) = true := by
  have hx : goatRelX sampleEnv turnGame = some (-1) := by
    unfold goatRelX
    rw [bugDistance_turnGame]
    have h : ((-3 : ℚ) - 2) / 5 = -1 := by norm_num
    simp [turnGame, sampleGame, objectAt, fdiv, sampleEnv, h, round2Q_neg_one]
  have hz : goatRelZ sampleEnv turnGame = some 0 := by
    unfold goatRelZ
    rw [bugDistance_turnGame]
    simp [turnGame, sampleGame, objectAt, fdiv, sampleEnv, round2Q_zero]
  unfold dotPosDir dotProduct
  rw [hx, hz]
  simp [fmul, fadd, flt, sampleEnv, turnGame, sampleGame, objectAt, cosQ, sinQ]
  norm_num

/-- In the phases 0 to 15 of a dive the bug is DIVING_DOWN, in the phases 16
to 31 it is DIVING_UP. -/
theorem divePhase_bugState (j : Nat) (hj : j ≤ 31) (h : divePhase j g) :
    (j ≤ 15 → g.bugState = BugState.DIVING_DOWN) ∧
      (16 ≤ j → g.bugState = BugState.DIVING_UP) := by
  unfold divePhase at h
  by_cases h0 : j = 0
  · rw [if_pos h0] at h
    exact ⟨fun _ => h.1, fun h16 => by omega⟩
  · rw [if_neg h0] at h
    by_cases h15 : j ≤ 15
    · rw [if_pos h15] at h
      exact ⟨fun _ => h.1, fun h16 => by omega⟩
    · rw [if_neg h15] at h
      by_cases h16 : j = 16
      · rw [if_pos h16] at h
        exact ⟨fun h => absurd h h15, fun _ => h.1⟩
      · rw [if_neg h16, if_pos hj] at h
        exact ⟨fun h => absurd h h15, fun _ => h.1⟩

/-- One tick moves a dive from phase `j` to phase `j + 1`, altitude
included. -/
theorem diveAltitude_step (j : Nat) (hj : j < 31) (h : diveAltitude j g) :
    diveAltitude (j + 1) (moveBug env g now) := by
  obtain ⟨hphase, hy⟩ := h
  have hnext := divePhase_step env g now j (by omega) hphase
  have hstate := divePhase_bugState (moveBug env g now) (j + 1) (by omega) hnext
  refine ⟨hnext, ?_⟩
  rw [moveBug_bugVerticalSpeed]
  by_cases h14 : j + 1 ≤ 15
  · have hs := hstate.1 h14
    have e : diveDepth (j + 1) = diveDepth j + 1 := by
      unfold diveDepth
      rw [if_pos h14, if_pos (by omega)]
    rw [moveBug_offset_y, if_pos hs, hy, e]
    push_cast
    ring
  · have hs := hstate.2 (by omega)
    have hne : ¬ BugState.DIVING_UP = BugState.DIVING_DOWN := by decide
    have e : diveDepth j = diveDepth (j + 1) + 1 := by
      unfold diveDepth
      rw [if_neg h14]
      split_ifs <;> omega
    rw [moveBug_offset_y, hs, if_neg hne, if_pos rfl, hy, e]
    push_cast
    ring

/-- A run of ticks moves a dive from phase `j` on by its length, altitude
included. -/
theorem diveAltitude_ticks (clocks : List Nat) :
    ∀ (j : Nat) (s : GameLogic), diveAltitude j s → j + clocks.length ≤ 31 →
      diveAltitude (j + clocks.length) (moveBugTicks env s clocks) := by
  induction clocks with
  | nil => intro j s h _; simpa [moveBugTicks] using h
  | cons c rest ih =>
    intro j s h hj
    simp only [List.length_cons] at hj
    have h1 := diveAltitude_step env s c j (by omega) h
    have h2 := ih (j + 1) (moveBug env s c) h1 (by omega)
    simp only [List.length_cons, moveBugTicks]
    have e : j + (rest.length + 1) = j + 1 + rest.length := by omega
    rw [e]
    exact h2

/-- The tick that takes a bug that is not diving, at the flight height, into
DIVING_DOWN starts the dive at phase 0. -/
theorem diveAltitude_start
    (hState : g.bugState = BugState.FLYING_STRAIGHT ∨ g.bugState = BugState.TURNING)
    (hy : g.bug.offset.y = GROUND_Y + BUG_FLIGHT_HEIGHT)
    (hDive : (moveBug env g now).bugState = BugState.DIVING_DOWN) :
    diveAltitude 0 (moveBug env g now) := by
  have hprev : (moveBug env g now).bugPreviousState = g.bugState :=
    moveBugFrom_bugPreviousState env g now _ _
  refine ⟨?_, ?_⟩
  · unfold divePhase
    rw [if_pos rfl]
    refine ⟨hDive, ?_⟩
    rw [hprev]
    rcases hState with h | h <;> rw [h] <;> decide
  · rw [moveBug_offset_y, if_pos hDive, moveBug_bugVerticalSpeed, hy]
    simp [diveDepth]

/-- The invariant of the flight is kept by a tick. -/
theorem flightInv_step (h : flightInv g) : flightInv (moveBug env g now) := by
  rcases h with ⟨hState, hy⟩ | ⟨j, hj, hdive⟩
  · have hD : g.bugState ≠ BugState.DIVING_DOWN := by
      rcases hState with h | h <;> rw [h] <;> decide
    have hU : g.bugState ≠ BugState.DIVING_UP := by
      rcases hState with h | h <;> rw [h] <;> decide
    have hst := moveBug_bugState env g now
    rw [if_neg hD, if_neg hU] at hst
    by_cases hd : bugDistance env g > BUG_START_DIVE_DISTANCE
    · rw [if_pos hd] at hst
      left
      have hnext : (moveBug env g now).bugState = BugState.FLYING_STRAIGHT ∨
          (moveBug env g now).bugState = BugState.TURNING := by
        by_cases hf : flt (dotPosDir env g) (98 / 100) = true
        · rw [if_pos hf] at hst; exact Or.inr hst
        · rw [if_neg hf] at hst; exact Or.inl hst
      refine ⟨hnext, ?_⟩
      have n1 : (moveBug env g now).bugState ≠ BugState.DIVING_DOWN := by
        rcases hnext with h | h <;> rw [h] <;> decide
      have n2 : (moveBug env g now).bugState ≠ BugState.DIVING_UP := by
        rcases hnext with h | h <;> rw [h] <;> decide
      rw [moveBug_offset_y, if_neg n1, if_neg n2, if_neg hU, hy]
    · rw [if_neg hd] at hst
      right
      exact ⟨0, by omega, diveAltitude_start env g now hState hy hst⟩
  · by_cases h31 : j = 31
    · subst h31
      have hnext := divePhase_step env g now 31 (by omega) hdive.1
      unfold divePhase at hnext
      simp only [show ¬ (31 + 1 = 0) by omega, show ¬ (31 + 1 ≤ 15) by omega,
        show ¬ (31 + 1 = 16) by omega, show ¬ (31 + 1 ≤ 31) by omega, if_false] at hnext
      left
      exact ⟨Or.inl hnext.1, hnext.2⟩
    · right
      exact ⟨j + 1, by omega, diveAltitude_step env g now j (by omega) hdive⟩

/-- The invariant of the flight holds after initGame. -/
theorem flightInv_initGame : flightInv (initGame g now) :=
  Or.inl ⟨Or.inl rfl, rfl⟩

/-- The invariant of the flight is kept by a run of ticks. -/
theorem flightInv_ticks (clocks : List Nat) :
    ∀ s : GameLogic, flightInv s → flightInv (moveBugTicks env s clocks) := by
  induction clocks with
  | nil => intro s h; exact h
  | cons c rest ih =>
    intro s h
    exact ih (moveBug env s c) (flightInv_step env s c h)

/-- The vertical speed is not changed by a run of ticks. -/
theorem moveBugTicks_bugVerticalSpeed (clocks : List Nat) :
    ∀ s : GameLogic, (moveBugTicks env s clocks).bugVerticalSpeed = s.bugVerticalSpeed := by
  induction clocks with
  | nil => intro s; rfl
  | cons c rest ih =>
    intro s
    simp only [moveBugTicks]
    rw [ih, moveBug_bugVerticalSpeed]

/-- Under the invariant of the flight the bug is at most 16 vertical steps
below the flight height. -/
theorem flightInv_depth (h : flightInv g) :
    ∃ k : Nat, k ≤ 16 ∧
      g.bug.offset.y = GROUND_Y + BUG_FLIGHT_HEIGHT - (k : ℚ) * g.bugVerticalSpeed := by
  rcases h with ⟨_, hy⟩ | ⟨j, hj, _, hy⟩
  · exact ⟨0, by omega, by rw [hy]; simp⟩
  · refine ⟨diveDepth j, ?_, hy⟩
    unfold diveDepth
    split_ifs <;> omega

/-- Under the invariant of the flight a bug that is not diving is at the
flight height. -/
theorem flightInv_nominal (h : flightInv g)
    (hState : g.bugState = BugState.FLYING_STRAIGHT ∨ g.bugState = BugState.TURNING) :
    g.bug.offset.y = GROUND_Y + BUG_FLIGHT_HEIGHT := by
  rcases h with ⟨_, hy⟩ | ⟨j, hj, hphase, _⟩
  · exact hy
  · exfalso
    have hs := divePhase_bugState g j hj hphase
    by_cases h15 : j ≤ 15
    · have := hs.1 h15
      rcases hState with h | h <;> rw [h] at this <;> exact absurd this (by decide)
    · have := hs.2 (by omega)
      rcases hState with h | h <;> rw [h] at this <;> exact absurd this (by decide)

/-- Under the invariant of the flight the tick that ends the ascent finds the
bug at the flight height already. -/
theorem flightInv_end_of_dive (h : flightInv g) (hUp : g.bugState = BugState.DIVING_UP)
    (hFrames : (if g.bugState = g.bugPreviousState then g.bugFramesInCurrentState + 1 else 1)
      > BUG_DIVE_DURATION / 2) :
    g.bug.offset.y = GROUND_Y + BUG_FLIGHT_HEIGHT := by
  rcases h with ⟨hState, _⟩ | ⟨j, hj, hphase, hy⟩
  · rcases hState with h | h <;> rw [h] at hUp <;> exact absurd hUp (by decide)
  · have hs := divePhase_bugState g j hj hphase
    have h16 : 16 ≤ j := by
      by_contra hc
      have := hs.1 (by omega)
      rw [this] at hUp
      exact absurd hUp (by decide)
    unfold divePhase at hphase
    rw [if_neg (by omega), if_neg (by omega)] at hphase
    by_cases he : j = 16
    · rw [if_pos he] at hphase
      exfalso
      have hne : ¬ BugState.DIVING_UP = BugState.DIVING_DOWN := by decide
      rw [hphase.1, hphase.2, if_neg hne] at hFrames
      norm_num [BUG_DIVE_DURATION] at hFrames
    · rw [if_neg he, if_pos hj] at hphase
      obtain ⟨h1, h2, h3⟩ := hphase
      rw [h1, h2, if_pos rfl, h3] at hFrames
      have hj31 : j = 31 := by
        simp only [BUG_DIVE_DURATION] at hFrames
        omega
      rw [hy, hj31]
      simp [diveDepth]

theorem sqrtQ_sample : sqrtQ (19889 / 100) = 141028 / 10000 := by
  have hf : Int.floor ((19889 / 100 : ℚ) * 100000000) = 19889000000 := by
    rw [Int.floor_eq_iff]
    norm_num
  have h : isqrtAux 19889000000 64 0 19889000001 = 141028 := by decide
  simp only [sqrtQ, hf]
  have ht : (19889000000 : ℤ).toNat = 19889000000 := rfl
  rw [ht, h]
  norm_num

theorem round2Q_sample : round2Q (141028 / 10000) = 141 / 10 := by
  have h : Int.floor ((100 : ℚ) * (141028 / 10000) + 1 / 2) = 1410 := by
    rw [Int.floor_eq_iff]
    norm_num
  simp only [round2Q, h]
  norm_num

/-- Right after initGame the distance between the bug and the goat is 14.1. -/
theorem bugDistance_initGame : bugDistance sampleEnv (initGame sampleGame 0) = 141 / 10 := by
  have h : ((5 / 10 : ℚ) - -12 / 10) * (5 / 10 - -12 / 10) + (-18 - -4) * (-18 - -4)
      = 19889 / 100 := by norm_num
  simp only [bugDistance, initGame, sampleEnv, h, sqrtQ_sample, round2Q_sample]

end Stages

/-! ## Lemmas on getTokens -/

section Tokens

variable (input : List Char) (sep : Char)

theorem countLoop_foldl (k : Nat) (s : List Char) :
    s.foldl (fun count c => if c = sep then count + 1 else count) k = k + s.count sep := by
  induction s generalizing k with
  | nil => simp
  | cons c cs ih =>
    rw [List.foldl_cons, ih]
    by_cases h : c = sep
    · subst h
      simp
      omega
    · have h2 : ¬ (c == sep) = true := by simpa using h
      simp [h, List.count_cons, h2]

/-- The first loop counts the occurrences of the separator. -/
theorem countLoop_eq_count : countLoop input sep = input.count sep := by
  unfold countLoop
  rw [countLoop_foldl]
  simp

/-- The second loop writes one token per iteration. -/
theorem fillTokens_length (remaining : Nat) :
    ∀ curPos : Nat, (fillTokens input sep remaining curPos).length = remaining := by
  induction remaining with
  | zero => intro curPos; rfl
  | succ r ih =>
    intro curPos
    unfold fillTokens
    by_cases h : r = 0
    · simp [h]
    · rw [if_neg h]
      cases find input sep curPos with
      | none => simp [ih]
      | some foundPos => simp [ih]

/-- In a string that holds the separator, `firstIndex` finds the offset that
splits it into a part free of the separator, the separator and the rest. -/
theorem firstIndex_of_mem (s : List Char) (h : sep ∈ s) :
    ∃ k : Nat, firstIndex sep s = some k ∧ sep ∉ s.take k ∧
      s.take k ++ sep :: s.drop (k + 1) = s := by
  induction s with
  | nil => exact absurd h (by simp)
  | cons c cs ih =>
    by_cases hc : c = sep
    · refine ⟨0, by simp [firstIndex, hc], by simp, by simp [hc]⟩
    · have hmem : sep ∈ cs := by
        rcases List.mem_cons.mp h with h1 | h1
        · exact absurd h1.symm hc
        · exact h1
      obtain ⟨k, hk, hfree, hsplit⟩ := ih hmem
      refine ⟨k + 1, by simp [firstIndex, hc, hk], ?_, ?_⟩
      · simp only [List.take_succ_cons, List.mem_cons, not_or]
        exact ⟨fun e => hc e.symm, hfree⟩
      · simp only [List.take_succ_cons, List.drop_succ_cons, List.cons_append]
        rw [hsplit]

theorem intercalate_cons_cons (a b : List Char) (l : List (List Char)) :
    List.intercalate [sep] (a :: b :: l) = a ++ sep :: List.intercalate [sep] (b :: l) := by
  simp [List.intercalate, List.intersperse]

/-- The tokens of the second loop, started at `curPos` with one iteration more
than there are separators from `curPos` on: none holds the separator, and
joined by it they give the string from `curPos` on. -/
theorem fillTokens_fields (n : Nat) :
    ∀ curPos : Nat, (input.drop curPos).count sep = n →
      (∀ t ∈ fillTokens input sep (n + 1) curPos, sep ∉ t) ∧
      List.intercalate [sep] (fillTokens input sep (n + 1) curPos) = input.drop curPos := by
  induction n with
  | zero =>
    intro curPos hcount
    have hfree : sep ∉ input.drop curPos := List.count_eq_zero.mp hcount
    have hfill : fillTokens input sep 1 curPos = [input.drop curPos] := by
      simp [fillTokens]
    rw [hfill]
    refine ⟨fun t ht => ?_, by simp [List.intercalate, List.intersperse]⟩
    rw [List.mem_singleton.mp ht]
    exact hfree
  | succ n ih =>
    intro curPos hcount
    have hmem : sep ∈ input.drop curPos := by
      apply List.count_pos_iff.mp
      omega
    obtain ⟨k, hk, hfree, hsplit⟩ := firstIndex_of_mem sep (input.drop curPos) hmem
    have hfind : find input sep curPos = some (curPos + k) := by
      simp [find, hk]
    have hdrop : input.drop (curPos + k + 1) = (input.drop curPos).drop (k + 1) := by
      rw [List.drop_drop, Nat.add_assoc]
    have hcount2 : (input.drop (curPos + k + 1)).count sep = n := by
      have h1 : ((input.drop curPos).take k ++ sep :: (input.drop curPos).drop (k + 1)).count sep
          = n + 1 := by rw [hsplit]; exact hcount
      rw [List.count_append, List.count_cons_self, List.count_eq_zero.mpr hfree] at h1
      rw [hdrop]
      omega
    obtain ⟨ihfree, ihjoin⟩ := ih (curPos + k + 1) hcount2
    have hfill : fillTokens input sep (n + 1 + 1) curPos =
        (input.drop curPos).take k :: fillTokens input sep (n + 1) (curPos + k + 1) := by
      rw [fillTokens]
      simp [hfind, substr]
    have hlen := fillTokens_length input sep (n + 1) (curPos + k + 1)
    rw [hfill]
    constructor
    · intro t ht
      rcases List.mem_cons.mp ht with h1 | h1
      · rw [h1]; exact hfree
      · exact ihfree t h1
    · cases hrest : fillTokens input sep (n + 1) (curPos + k + 1) with
      | nil => rw [hrest] at hlen; simp at hlen
      | cons b l =>
        rw [intercalate_cons_cons, ← hrest, ihjoin, hdrop, hsplit]

end Tokens

/-! ## Lemmas on the collision queries -/

section Boxes

theorem foldl_min_spec (rest : List ℚ) :
    ∀ a : ℚ, rest.foldl min a ∈ a :: rest ∧ ∀ b ∈ a :: rest, rest.foldl min a ≤ b := by
  induction rest with
  | nil => intro a; simp
  | cons c cs ih =>
    intro a
    obtain ⟨hmem, hle⟩ := ih (min a c)
    simp only [List.foldl_cons]
    constructor
    · rcases List.mem_cons.mp hmem with h | h
      · rw [h]
        rcases min_choice a c with h2 | h2 <;> rw [h2] <;> simp
      · exact List.mem_cons_of_mem _ (List.mem_cons_of_mem _ h)
    · intro b hb
      have hm := hle (min a c) (List.mem_cons_self _ _)
      rcases List.mem_cons.mp hb with h | h
      · rw [h]; exact le_trans hm (min_le_left a c)
      · rcases List.mem_cons.mp h with h2 | h2
        · rw [h2]; exact le_trans hm (min_le_right a c)
        · exact hle b (List.mem_cons_of_mem _ h2)

theorem foldl_max_spec (rest : List ℚ) :
    ∀ a : ℚ, rest.foldl max a ∈ a :: rest ∧ ∀ b ∈ a :: rest, b ≤ rest.foldl max a := by
  induction rest with
  | nil => intro a; simp
  | cons c cs ih =>
    intro a
    obtain ⟨hmem, hle⟩ := ih (max a c)
    simp only [List.foldl_cons]
    constructor
    · rcases List.mem_cons.mp hmem with h | h
      · rw [h]
        rcases max_choice a c with h2 | h2 <;> rw [h2] <;> simp
      · exact List.mem_cons_of_mem _ (List.mem_cons_of_mem _ h)
    · intro b hb
      have hm := hle (max a c) (List.mem_cons_self _ _)
      rcases List.mem_cons.mp hb with h | h
      · rw [h]; exact le_trans (le_max_left a c) hm
      · rcases List.mem_cons.mp h with h2 | h2
        · rw [h2]; exact le_trans (le_max_right a c) hm
        · exact hle b (List.mem_cons_of_mem _ h2)

/-- The value `lowest` returns is the minimum of the list. -/
theorem lowest_spec (cs : List ℚ) (lo : ℚ) (h : lowest cs = some lo) :
    lo ∈ cs ∧ ∀ b ∈ cs, lo ≤ b := by
  cases cs with
  | nil => simp [lowest] at h
  | cons a rest =>
    simp only [lowest, Option.some.injEq] at h
    rw [← h]
    exact foldl_min_spec rest a

/-- The value `highest` returns is the maximum of the list. -/
theorem highest_spec (cs : List ℚ) (hi : ℚ) (h : highest cs = some hi) :
    hi ∈ cs ∧ ∀ b ∈ cs, b ≤ hi := by
  cases cs with
  | nil => simp [highest] at h
  | cons a rest =>
    simp only [highest, Option.some.injEq] at h
    rw [← h]
    exact foldl_max_spec rest a

theorem lowest_of_mem (cs : List ℚ) (a : ℚ) (h : a ∈ cs) : ∃ lo, lowest cs = some lo := by
  cases cs with
  | nil => simp at h
  | cons b rest => exact ⟨_, rfl⟩

theorem highest_of_mem (cs : List ℚ) (a : ℚ) (h : a ∈ cs) : ∃ hi, highest cs = some hi := by
  cases cs with
  | nil => simp at h
  | cons b rest => exact ⟨_, rfl⟩

/-- The test on one axis holds exactly when the value lies between the
minimum and the maximum of the vertices of the box on that axis. -/
theorem axisWithin_iff (box : List (List ℚ)) (axis : Nat) (c : ℚ) :
    axisWithin box axis c = true ↔
      (∃ lo ∈ axisValues box axis, (∀ a ∈ axisValues box axis, lo ≤ a) ∧ lo ≤ c) ∧
      (∃ hi ∈ axisValues box axis, (∀ a ∈ axisValues box axis, a ≤ hi) ∧ c ≤ hi) := by
  constructor
  · intro h
    unfold axisWithin at h
    cases hl : lowest (axisValues box axis) with
    | none => rw [hl] at h; simp at h
    | some lo =>
      cases hh : highest (axisValues box axis) with
      | none => rw [hl, hh] at h; simp at h
      | some hi =>
        rw [hl, hh] at h
        simp only [Bool.and_eq_true, decide_eq_true_eq] at h
        obtain ⟨m1, b1⟩ := lowest_spec _ _ hl
        obtain ⟨m2, b2⟩ := highest_spec _ _ hh
        exact ⟨⟨lo, m1, b1, h.1⟩, ⟨hi, m2, b2, h.2⟩⟩
  · rintro ⟨⟨lo, m1, b1, h1⟩, ⟨hi, m2, b2, h2⟩⟩
    obtain ⟨lo0, hl⟩ := lowest_of_mem _ _ m1
    obtain ⟨hi0, hh⟩ := highest_of_mem _ _ m2
    have a1 := (lowest_spec _ _ hl).2 lo m1
    have a2 := (highest_spec _ _ hh).2 hi m2
    unfold axisWithin
    rw [hl, hh]
    simp only [Bool.and_eq_true, decide_eq_true_eq]
    exact ⟨le_trans a1 h1, le_trans h2 a2⟩

/-- The test of one box holds exactly when the test on each of the three
axes does. -/
theorem boxContains_iff (box : List (List ℚ)) (p : Vec3) :
    boxContains box p = true ↔ ∀ axis < 3, axisWithin box axis (coord p axis) = true := by
  unfold boxContains
  simp only [Bool.and_eq_true]
  constructor
  · rintro ⟨⟨h0, h1⟩, h2⟩ axis haxis
    interval_cases axis
    · exact h0
    · exact h1
    · exact h2
  · intro h
    exact ⟨⟨h 0 (by omega), h 1 (by omega)⟩, h 2 (by omega)⟩

theorem cosQ_zero : cosQ 0 = 1 := by norm_num [cosQ]

theorem sinQ_zero : sinQ 0 = 0 := by norm_num [sinQ]

end Boxes

/-! ## Lemmas on the texture registry -/

section Registry

theorem lookup_cons_self (name : String) (handle : Nat) (rest : Textures) :
    List.lookup name ((name, handle) :: rest) = some handle := by
  rw [List.lookup_cons]
  simp

theorem lookup_cons_ne (name key : String) (handle : Nat) (rest : Textures)
    (h : ¬ name = key) :
    List.lookup name ((key, handle) :: rest) = List.lookup name rest := by
  rw [List.lookup_cons]
  have hb : (name == key) = false := by simpa using h
  rw [hb]

theorem erase_cons_self (name : String) (handle : Nat) (rest : Textures) :
    eraseTexture ((name, handle) :: rest) name = eraseTexture rest name := by
  unfold eraseTexture
  rw [List.filter_cons_of_neg]
  simp

theorem erase_cons_ne (name key : String) (handle : Nat) (rest : Textures)
    (h : ¬ key = name) :
    eraseTexture ((key, handle) :: rest) name = (key, handle) :: eraseTexture rest name := by
  unfold eraseTexture
  rw [List.filter_cons_of_pos]
  simpa using h

theorem findTexture_eraseTexture_self (textures : Textures) (name : String) :
    findTexture (eraseTexture textures name) name = none := by
  induction textures with
  | nil => rfl
  | cons pair rest ih =>
    obtain ⟨key, handle⟩ := pair
    by_cases h : key = name
    · rw [h, erase_cons_self]
      exact ih
    · rw [erase_cons_ne name key handle rest h]
      unfold findTexture at ih ⊢
      rw [lookup_cons_ne name key handle _ (fun e => h e.symm)]
      exact ih

theorem findTexture_eraseTexture_other (textures : Textures) (name other : String)
    (hne : other ≠ name) :
    findTexture (eraseTexture textures name) other = findTexture textures other := by
  induction textures with
  | nil => rfl
  | cons pair rest ih =>
    obtain ⟨key, handle⟩ := pair
    unfold findTexture at ih ⊢
    by_cases h : key = name
    · rw [h, erase_cons_self, lookup_cons_ne other name handle rest hne]
      exact ih
    · rw [erase_cons_ne name key handle rest h]
      by_cases h2 : other = key
      · rw [h2, lookup_cons_self, lookup_cons_self]
      · rw [lookup_cons_ne other key handle _ h2, lookup_cons_ne other key handle _ h2]
        exact ih

theorem findTexture_insertTexture_other (textures : Textures) (name other : String)
    (handle : Nat) (hne : other ≠ name) :
    findTexture (insertTexture textures name handle) other = findTexture textures other := by
  unfold insertTexture
  cases h : findTexture textures name with
  | some earlier => rfl
  | none =>
    show List.lookup other ((name, handle) :: textures) = List.lookup other textures
    exact lookup_cons_ne other name handle textures hne

theorem findTexture_insertTexture_new (textures : Textures) (name : String) (handle : Nat)
    (h : findTexture textures name = none) :
    findTexture (insertTexture textures name handle) name = some handle := by
  unfold insertTexture
  rw [h]
  exact lookup_cons_self name handle textures

theorem insertTexture_registered (textures : Textures) (name : String) (handle earlier : Nat)
    (h : findTexture textures name = some earlier) :
    insertTexture textures name handle = textures := by
  unfold insertTexture
  rw [h]

end Registry

/-! ## Lemmas on the rounded arithmetic -/

section Rounding

/-- A value within half a unit of an integer rounds to that integer. -/
theorem roundHalfEven_eq (x : ℚ) (n : ℤ) (h1 : (n : ℚ) - 1 / 2 < x) (h2 : x < n + 1 / 2) :
    roundHalfEven x = n := by
  by_cases hx : (n : ℚ) ≤ x
  · have hf : Int.floor x = n := Int.floor_eq_iff.mpr ⟨hx, by linarith⟩
    simp only [roundHalfEven, hf]
    rw [if_pos (by linarith)]
  · have hf : Int.floor x = n - 1 :=
      Int.floor_eq_iff.mpr ⟨by push_cast; linarith, by push_cast; linarith⟩
    simp only [roundHalfEven, hf]
    rw [if_neg (by push_cast; linarith), if_pos (by push_cast; linarith)]
    ring

/-- The binary exponent of a positive value between two powers of 2. -/
theorem log_two_eq (r : ℚ) (e : ℤ) (h1 : (2 : ℚ) ^ e ≤ r) (h2 : r < (2 : ℚ) ^ (e + 1)) :
    Int.log 2 r = e := by
  have hpos : 0 < r := lt_of_lt_of_le (by positivity) h1
  have a1 : e ≤ Int.log 2 r :=
    (Int.zpow_le_iff_le_log (R := ℚ) (b := 2) (by norm_num) hpos).mp (by simpa using h1)
  have a2 : Int.log 2 r < e + 1 :=
    (Int.lt_zpow_iff_log_lt (R := ℚ) (b := 2) (by norm_num) hpos).mp (by simpa using h2)
  omega

/-- The rounding `float32` of a value in the binade of exponent `e`, within
half a unit in the last place of `n` units. -/
theorem float32_eval (q : ℚ) (e n : ℤ) (h1 : (2 : ℚ) ^ e ≤ |q|) (h2 : |q| < (2 : ℚ) ^ (e + 1))
    (he : -126 ≤ e) (hn1 : (n : ℚ) - 1 / 2 < q / (2 : ℚ) ^ (e - 23))
    (hn2 : q / (2 : ℚ) ^ (e - 23) < n + 1 / 2) :
    float32 q = n * (2 : ℚ) ^ (e - 23) := by
  have hq : q ≠ 0 := by
    intro h0
    rw [h0, abs_zero] at h1
    exact absurd h1 (not_le.mpr (by positivity))
  have hlog := log_two_eq |q| e h1 h2
  simp only [float32, hq, if_false, hlog, max_eq_left he]
  rw [roundHalfEven_eq _ n hn1 hn2]

theorem float32_zero : float32 0 = 0 := by
  simp [float32]

theorem float32_speed : float32 GOAT_SPEED = 13421773 / 268435456 := by
  rw [GOAT_SPEED, float32_eval (5 / 100) (-5) 13421773
    (by rw [abs_of_pos (by norm_num)]; norm_num)
    (by rw [abs_of_pos (by norm_num)]; norm_num)
    (by norm_num) (by norm_num) (by norm_num)]
  norm_num

theorem float32_speed_again : float32 (13421773 / 268435456) = 13421773 / 268435456 := by
  rw [float32_eval (13421773 / 268435456) (-5) 13421773
    (by rw [abs_of_pos (by norm_num)]; norm_num)
    (by rw [abs_of_pos (by norm_num)]; norm_num)
    (by norm_num) (by norm_num) (by norm_num)]
  norm_num

theorem float32_one_plus_speed :
    float32 (1 + 13421773 / 268435456) = 4404019 / 4194304 := by
  rw [float32_eval (1 + 13421773 / 268435456) 0 8808038
    (by rw [abs_of_pos (by norm_num)]; norm_num)
    (by rw [abs_of_pos (by norm_num)]; norm_num)
    (by norm_num) (by norm_num) (by norm_num)]
  norm_num

theorem float32_back_again :
    float32 (4404019 / 4194304 - 13421773 / 268435456) = 16777215 / 16777216 := by
  rw [float32_eval (4404019 / 4194304 - 13421773 / 268435456) (-1) 16777215
    (by rw [abs_of_pos (by norm_num)]; norm_num)
    (by rw [abs_of_pos (by norm_num)]; norm_num)
    (by norm_num) (by norm_num) (by norm_num)]
  norm_num

theorem float32_one_minus_speed :
    float32 (1 - 13421773 / 268435456) = 15938355 / 16777216 := by
  rw [float32_eval (1 - 13421773 / 268435456) (-1) 15938355
    (by rw [abs_of_pos (by norm_num)]; norm_num)
    (by rw [abs_of_pos (by norm_num)]; norm_num)
    (by norm_num) (by norm_num) (by norm_num)]
  norm_num

theorem float32_forth_again :
    float32 (15938355 / 16777216 + 13421773 / 268435456) = 1 := by
  rw [float32_eval (15938355 / 16777216 + 13421773 / 268435456) (-1) 16777216
    (by rw [abs_of_pos (by norm_num)]; norm_num)
    (by rw [abs_of_pos (by norm_num)]; norm_num)
    (by norm_num) (by norm_num) (by norm_num)]
  norm_num

theorem float32_neg_two : float32 (-2) = -2 := by
  rw [float32_eval (-2) 1 (-8388608)
    (by rw [abs_of_neg (by norm_num)]; norm_num)
    (by rw [abs_of_neg (by norm_num)]; norm_num)
    (by norm_num) (by norm_num) (by norm_num)]
  norm_num

theorem float32_full_rotation : float32 FULL_ROTATION = 13170115 / 2097152 := by
  rw [FULL_ROTATION, float32_eval (628 / 100) 2 13170115
    (by rw [abs_of_pos (by norm_num)]; norm_num)
    (by rw [abs_of_pos (by norm_num)]; norm_num)
    (by norm_num) (by norm_num) (by norm_num)]
  norm_num

/-- The step back in the arithmetic of the machine, for a goat with yaw 0. -/
theorem stepBackRounded_yaw_zero (x y z : ℚ) :
    stepBackRounded float32 sampleEnv (objectAt x y z 0)
      = objectAt (float32 (x + 13421773 / 268435456)) y (float32 z) 0 := by
  simp [stepBackRounded, objectAt, sampleEnv, cosQ_zero, sinQ_zero, float32_speed,
    float32_speed_again, float32_zero]

/-- The step forward in the arithmetic of the machine, for a goat with yaw 0. -/
theorem stepForwardRounded_yaw_zero (x y z : ℚ) :
    stepForwardRounded float32 sampleEnv (objectAt x y z 0)
      = objectAt (float32 (x - 13421773 / 268435456)) y (float32 z) 0 := by
  simp [stepForwardRounded, objectAt, sampleEnv, cosQ_zero, sinQ_zero, float32_speed,
    float32_speed_again, float32_zero]

/-- With the identity as rounding, moveGoat in rounded arithmetic is
moveGoat. -/
theorem moveGoatRounded_exact (env : Env) (fuel : Nat) (g : GameLogic) (keyInput : KeyInput) :
    moveGoatRounded (fun q => q) env fuel g keyInput = moveGoat env fuel g keyInput := rfl

end Rounding

/-! ## Theorems -/

/-- C1: in a tick that starts with the bug not diving, the state after the
tick is DIVING_DOWN when the distance is at most BUG_START_DIVE_DISTANCE;
when the distance is larger the alignment `dotPosDir` has a value, and the
state is TURNING if that value is below 0.98 and FLYING_STRAIGHT if not. -/
theorem moveBug_transition_when_not_diving (env : Env) (g : GameLogic) (now : Nat)
    (hDown : g.bugState ≠ BugState.DIVING_DOWN) (hUp : g.bugState ≠ BugState.DIVING_UP) :
    (bugDistance env g ≤ BUG_START_DIVE_DISTANCE →
        (moveBug env g now).bugState = BugState.DIVING_DOWN) ∧
      (bugDistance env g > BUG_START_DIVE_DISTANCE →
        ∃ a : ℚ, dotPosDir env g = some a ∧
          (a < 98 / 100 → (moveBug env g now).bugState = BugState.TURNING) ∧
          (a ≥ 98 / 100 → (moveBug env g now).bugState = BugState.FLYING_STRAIGHT)) := by
  have hs : (moveBug env g now).bugState =
      if bugDistance env g > BUG_START_DIVE_DISTANCE then
        (if flt (dotPosDir env g) (98 / 100) then BugState.TURNING
         else BugState.FLYING_STRAIGHT)
      else BugState.DIVING_DOWN := by
    unfold moveBug
    rw [moveBugFrom_bugState, decideBugState_bugState, countFrames_bugState]
    simp only [hDown, hUp, if_false]
    rfl
  constructor
  · intro hd
    rw [hs, if_neg (not_lt.mpr hd)]
  · intro hd
    have hne : bugDistance env g ≠ 0 := by
      intro h0
      rw [h0] at hd
      norm_num [BUG_START_DIVE_DISTANCE] at hd
    have hdot : ∃ a : ℚ, dotPosDir env g = some a := by
      simp [dotPosDir, dotProduct, goatRelX, goatRelZ, fdiv, hne, fmul, fadd]
    obtain ⟨a, ha⟩ := hdot
    refine ⟨a, ha, ?_, ?_⟩
    · intro hlt
      rw [hs, if_pos hd, ha]
      simp [flt, hlt]
    · intro hge
      rw [hs, if_pos hd, ha]
      simp [flt, not_lt.mpr hge]

/-- Witness of C1 on the sample game, where the bug flies straight. -/
theorem moveBug_transition_when_not_diving_witness :
    sampleGame.bugState ≠ BugState.DIVING_DOWN ∧ sampleGame.bugState ≠ BugState.DIVING_UP ∧
      ((bugDistance sampleEnv sampleGame ≤ BUG_START_DIVE_DISTANCE →
          (moveBug sampleEnv sampleGame 0).bugState = BugState.DIVING_DOWN) ∧
        (bugDistance sampleEnv sampleGame > BUG_START_DIVE_DISTANCE →
          ∃ a : ℚ, dotPosDir sampleEnv sampleGame = some a ∧
            (a < 98 / 100 → (moveBug sampleEnv sampleGame 0).bugState = BugState.TURNING) ∧
            (a ≥ 98 / 100 →
              (moveBug sampleEnv sampleGame 0).bugState = BugState.FLYING_STRAIGHT))) :=
  ⟨by decide, by decide,
    moveBug_transition_when_not_diving sampleEnv sampleGame 0 (by decide) (by decide)⟩

/-- C3: after every tick of moveBug, whatever the state before it, the bug
is inside the arena: MIN_Z ≤ z ≤ MAX_Z and z ≤ x ≤ -z. -/
theorem moveBug_arena_clamp (env : Env) (g : GameLogic) (now : Nat) :
    MIN_Z ≤ (moveBug env g now).bug.offset.z ∧ (moveBug env g now).bug.offset.z ≤ MAX_Z ∧
      (moveBug env g now).bug.offset.z ≤ (moveBug env g now).bug.offset.x ∧
      (moveBug env g now).bug.offset.x ≤ -(moveBug env g now).bug.offset.z :=
  clampBug_arena _

/-- C8: in every tick of moveBug the frame counter grows by one when the
state at the start of the tick equals bugPreviousState and becomes 1 when it
differs, and bugPreviousState after the tick is the state at the start. -/
theorem moveBug_frame_counter (env : Env) (g : GameLogic) (now : Nat) :
    (g.bugState = g.bugPreviousState →
        (moveBug env g now).bugFramesInCurrentState = g.bugFramesInCurrentState + 1) ∧
      (g.bugState ≠ g.bugPreviousState → (moveBug env g now).bugFramesInCurrentState = 1) ∧
      (moveBug env g now).bugPreviousState = g.bugState := by
  unfold moveBug
  refine ⟨fun h => ?_, fun h => ?_, moveBugFrom_bugPreviousState env g now _ _⟩
  · rw [moveBugFrom_frames, if_pos h]
  · rw [moveBugFrom_frames, if_neg h]

/-- C2: after a tick that changed the state of the bug to DIVING_DOWN (the
state before it was then not a dive), a run of consecutive ticks of moveBug
leaves the state DIVING_DOWN after each of the first 15 ticks, DIVING_UP after
each of the ticks 16 to 31, and after tick 32 the state is FLYING_STRAIGHT
with the altitude equal to GROUND_Y + BUG_FLIGHT_HEIGHT. -/
theorem moveBug_dive_symmetry (env : Env) (g : GameLogic) (now0 : Nat)
    (hDown : g.bugState ≠ BugState.DIVING_DOWN)
    (hDive : (moveBug env g now0).bugState = BugState.DIVING_DOWN) (clocks : List Nat) :
    (clocks.length ≤ 15 →
        (moveBugTicks env (moveBug env g now0) clocks).bugState = BugState.DIVING_DOWN) ∧
      (16 ≤ clocks.length → clocks.length ≤ 31 →
        (moveBugTicks env (moveBug env g now0) clocks).bugState = BugState.DIVING_UP) ∧
      (clocks.length = 32 →
        (moveBugTicks env (moveBug env g now0) clocks).bugState = BugState.FLYING_STRAIGHT ∧
        (moveBugTicks env (moveBug env g now0) clocks).bug.offset.y
          = GROUND_Y + BUG_FLIGHT_HEIGHT) := by
  have hprev : (moveBug env g now0).bugPreviousState = g.bugState :=
    moveBugFrom_bugPreviousState env g now0 _ _
  have h0 : divePhase 0 (moveBug env g now0) := by
    unfold divePhase
    simp only [if_true]
    exact ⟨hDive, by rw [hprev]; exact hDown⟩
  have hrun : clocks.length ≤ 32 →
      divePhase clocks.length (moveBugTicks env (moveBug env g now0) clocks) := by
    intro hl
    have := divePhase_ticks env clocks 0 (moveBug env g now0) h0 (by omega)
    simpa using this
  refine ⟨fun h15 => ?_, fun h16 h31 => ?_, fun h32 => ?_⟩
  · have h := hrun (by omega)
    unfold divePhase at h
    by_cases hz : clocks.length = 0
    · rw [if_pos hz] at h; exact h.1
    · rw [if_neg hz, if_pos h15] at h; exact h.1
  · have h := hrun (by omega)
    unfold divePhase at h
    have hz : ¬ clocks.length = 0 := by omega
    have h15 : ¬ clocks.length ≤ 15 := by omega
    rw [if_neg hz, if_neg h15] at h
    by_cases he : clocks.length = 16
    · rw [if_pos he] at h; exact h.1
    · rw [if_neg he, if_pos h31] at h; exact h.1
  · have h := hrun (by omega)
    unfold divePhase at h
    rw [h32] at h
    simpa using h

/-- C4: on the start screen a confirm makes process end with the game in
progress, the bug flying straight with a frame counter of 1, the goat and the
bug at their starting positions and startTicks equal to the clock reading. -/
theorem process_start_screen_confirm (env : Env) (fuel : Nat) (g : GameLogic)
    (keyInput : KeyInput) (now : Nat)
    (hState : g.gameState = START_SCREEN) (hEnter : keyInput.enter = true) :
    ∃ g1 : GameLogic, process env fuel g keyInput now = Outcome.done g1 ∧
      g1.gameState = PLAYING ∧
      g1.bugState = BugState.FLYING_STRAIGHT ∧
      g1.bugPreviousState = BugState.FLYING_STRAIGHT ∧
      g1.bugFramesInCurrentState = 1 ∧
      g1.goat.offset = { x := -12 / 10, y := GROUND_Y, z := -4 } ∧
      g1.bug.offset = { x := 5 / 10, y := GROUND_Y + BUG_FLIGHT_HEIGHT, z := -18 } ∧
      g1.startTicks = now := by
  refine ⟨{ initGame g now with gameState := PLAYING }, ?_, rfl, rfl, rfl, rfl, rfl, rfl, rfl⟩
  simp [process, hState, processStartScreen, hEnter]

/-- Witness of C4: the sample game put back on the start screen, and a key
input with the confirm flag set. -/
theorem process_start_screen_confirm_witness :
    ({ sampleGame with gameState := START_SCREEN } : GameLogic).gameState = START_SCREEN ∧
      ({ upKey with enter := true } : KeyInput).enter = true ∧
      ∃ g1 : GameLogic,
        process sampleEnv 1 { sampleGame with gameState := START_SCREEN }
          { upKey with enter := true } 77 = Outcome.done g1 ∧
        g1.gameState = PLAYING ∧
        g1.bugState = BugState.FLYING_STRAIGHT ∧
        g1.bugPreviousState = BugState.FLYING_STRAIGHT ∧
        g1.bugFramesInCurrentState = 1 ∧
        g1.goat.offset = { x := -12 / 10, y := GROUND_Y, z := -4 } ∧
        g1.bug.offset = { x := 5 / 10, y := GROUND_Y + BUG_FLIGHT_HEIGHT, z := -18 } ∧
        g1.startTicks = 77 :=
  ⟨rfl, rfl, process_start_screen_confirm sampleEnv 1 _ _ 77 rfl rfl⟩

/-- C10: a tick of moveBug plays "bah" exactly when the bug's state at the
start of the tick is DIVING_DOWN and the goat's collision query on the bug's
position is true, and plays nothing otherwise; a catch while DIVING_UP sets
the game state to START_SCREEN and plays nothing. -/
theorem moveBug_catch_sound (env : Env) (g : GameLogic) (now : Nat) :
    ((moveBug env g now).played = g.played ++ ["bah"] ↔
        (g.bugState = BugState.DIVING_DOWN ∧ bugHitsGoat env g = true)) ∧
      (¬ (g.bugState = BugState.DIVING_DOWN ∧ bugHitsGoat env g = true) →
        (moveBug env g now).played = g.played) ∧
      (g.bugState = BugState.DIVING_UP → bugHitsGoat env g = true →
        (moveBug env g now).gameState = START_SCREEN ∧
        (moveBug env g now).played = g.played) := by
  refine ⟨⟨fun h => ?_, fun h => ?_⟩, fun h => ?_, fun hUp hHit => ⟨?_, ?_⟩⟩
  · by_contra hc
    rw [moveBug_played, if_neg hc] at h
    simp at h
  · rw [moveBug_played, if_pos h]
  · rw [moveBug_played, if_neg h]
  · rw [moveBug_gameState, if_pos ⟨Or.inr hUp, hHit⟩]
  · rw [moveBug_played, if_neg]
    rw [hUp]
    simp

/-- Witness of C2: the tick of the sample game with the bug above the goat
starts a dive, and a run of 32 ticks follows it. -/
theorem moveBug_dive_symmetry_witness :
    closeGame.bugState ≠ BugState.DIVING_DOWN ∧
      (moveBug sampleEnv closeGame 0).bugState = BugState.DIVING_DOWN ∧
      ((List.replicate 32 0).length ≤ 15 →
        (moveBugTicks sampleEnv (moveBug sampleEnv closeGame 0) (List.replicate 32 0)).bugState
          = BugState.DIVING_DOWN) ∧
      (16 ≤ (List.replicate 32 0).length → (List.replicate 32 0).length ≤ 31 →
        (moveBugTicks sampleEnv (moveBug sampleEnv closeGame 0) (List.replicate 32 0)).bugState
          = BugState.DIVING_UP) ∧
      ((List.replicate 32 0).length = 32 →
        (moveBugTicks sampleEnv (moveBug sampleEnv closeGame 0) (List.replicate 32 0)).bugState
          = BugState.FLYING_STRAIGHT ∧
        (moveBugTicks sampleEnv (moveBug sampleEnv closeGame 0)
          (List.replicate 32 0)).bug.offset.y = GROUND_Y + BUG_FLIGHT_HEIGHT) :=
  have hDive : (moveBug sampleEnv closeGame 0).bugState = BugState.DIVING_DOWN := by
    rw [moveBug_bugState, bugDistance_closeGame]
    norm_num [closeGame, sampleGame, BUG_START_DIVE_DISTANCE]
    rfl
  ⟨by decide, hDive,
    moveBug_dive_symmetry sampleEnv closeGame 0 (by decide) hDive (List.replicate 32 0)⟩

/-- C9, the code at a catch during the ascent: the session started at clock
1000 and the clock reads 6000, the collision query is true, the game goes to
the start screen, and the stored survival time is still 0, not 5. -/
theorem moveBug_ascent_catch_keeps_seconds :
    ascentCatch.bugState = BugState.DIVING_UP ∧
      bugHitsGoat sampleEnv ascentCatch = true ∧
      (moveBug sampleEnv ascentCatch 6000).gameState = START_SCREEN ∧
      ascentCatch.seconds = 0 ∧
      (moveBug sampleEnv ascentCatch 6000).seconds = 0 ∧
      ticksSince 6000 ascentCatch.startTicks / 1000 = 5 := by
  have hHit : bugHitsGoat sampleEnv ascentCatch = true := by
    simp [bugHitsGoat, sampleEnv, boxHit, ascentCatch, sampleGame, objectAt, GROUND_Y]
    norm_num
  refine ⟨rfl, hHit, ?_, rfl, ?_, by decide⟩
  · rw [moveBug_gameState, if_pos ⟨Or.inr rfl, hHit⟩]
  · rw [moveBug_seconds, if_neg (by simp [ascentCatch])]
    rfl

/-- C7, the code where the bug is right above the goat: the distance is 0,
both divisions have a zero divisor, and the bearing and the alignment
computed from it are undefined. -/
theorem moveBug_divides_by_zero_distance :
    closeGame.bug.offset.x = closeGame.goat.offset.x ∧
      closeGame.bug.offset.z = closeGame.goat.offset.z ∧
      bugDistance sampleEnv closeGame = 0 ∧
      goatRelX sampleEnv closeGame = none ∧ goatRelZ sampleEnv closeGame = none ∧
      dotPosDir sampleEnv closeGame = none := by
  refine ⟨rfl, rfl, bugDistance_closeGame, ?_, ?_, ?_⟩
  · simp [goatRelX, bugDistance_closeGame, fdiv]
  · simp [goatRelZ, bugDistance_closeGame, fdiv]
  · simp [dotPosDir, dotProduct, goatRelX, goatRelZ, bugDistance_closeGame, fdiv, fmul, fadd]

/-- C7 as amended: moveBug has no special case for a zero distance; when the
distance is 0 both divisions have a zero divisor and the bearing is undefined,
but the tick does not use it: its result is the same for every value of the
two bearing components, and the state after the tick is not TURNING. -/
theorem moveBug_zero_distance_bearing_unused (env : Env) (g : GameLogic) (now : Nat)
    (hZero : bugDistance env g = 0) :
    goatRelX env g = none ∧ goatRelZ env g = none ∧
      (∀ relX relZ : Option ℚ, moveBugFrom env g now relX relZ = moveBug env g now) ∧
      (moveBug env g now).bugState ≠ BugState.TURNING := by
  have hle : bugDistance env g ≤ BUG_START_DIVE_DISTANCE := by
    rw [hZero]; norm_num [BUG_START_DIVE_DISTANCE]
  refine ⟨?_, ?_, fun relX relZ => ?_, ?_⟩
  · simp [goatRelX, hZero, fdiv]
  · simp [goatRelZ, hZero, fdiv]
  · unfold moveBug moveBugFrom
    rw [decideBugState_dot_unused env (countFrames g) now (bugDistance env g)
      (dotProduct env g relX relZ)
      (dotProduct env g (goatRelX env g) (goatRelZ env g)) hle]
  · rw [moveBug_bugState, if_neg (not_lt.mpr hle)]
    split_ifs <;> simp

/-- Witness of the amended C7: the sample game with the bug above the goat. -/
theorem moveBug_zero_distance_bearing_unused_witness :
    bugDistance sampleEnv closeGame = 0 ∧
      goatRelX sampleEnv closeGame = none ∧ goatRelZ sampleEnv closeGame = none ∧
      (∀ relX relZ : Option ℚ,
        moveBugFrom sampleEnv closeGame 0 relX relZ = moveBug sampleEnv closeGame 0) ∧
      (moveBug sampleEnv closeGame 0).bugState ≠ BugState.TURNING :=
  ⟨bugDistance_closeGame,
    moveBug_zero_distance_bearing_unused sampleEnv closeGame 0 bugDistance_closeGame⟩

/-- The rollback of moveGoat in exact arithmetic, where every undo step is
the inverse of its move: the goat stands clear of the tree, inside its clamp
region, with a yaw within a full rotation either way; for each of the four
moves taken alone whose candidate pose collides with the tree, moveGoat ends
(with any fuel of at least 2) and leaves the offset and the rotation of the
goat as they were. -/
theorem moveGoat_rollback_exact (env : Env) (fuel : Nat) (g : GameLogic) (keyInput : KeyInput)
    (hFuel : 2 ≤ fuel)
    (hFree : env.collidesWithSceneObject g.goat g.tree = false)
    (hInside : MIN_Z + 1 ≤ g.goat.offset.z ∧ g.goat.offset.z ≤ MAX_Z - 1 ∧
      g.goat.offset.z ≤ g.goat.offset.x ∧ g.goat.offset.x ≤ -g.goat.offset.z)
    (hYaw : -FULL_ROTATION ≤ g.goat.rotation.y ∧ g.goat.rotation.y ≤ FULL_ROTATION)
    (hMove :
      (keyInput.left = true ∧ keyInput.right = false ∧ keyInput.up = false ∧
          keyInput.down = false ∧
          env.collidesWithSceneObject (yawMinus g.goat) g.tree = true) ∨
        (keyInput.left = false ∧ keyInput.right = true ∧ keyInput.up = false ∧
          keyInput.down = false ∧
          env.collidesWithSceneObject (yawPlus g.goat) g.tree = true) ∨
        (keyInput.left = false ∧ keyInput.right = false ∧ keyInput.up = true ∧
          keyInput.down = false ∧
          env.collidesWithSceneObject (stepForward env g.goat) g.tree = true) ∨
        (keyInput.left = false ∧ keyInput.right = false ∧ keyInput.up = false ∧
          keyInput.down = true ∧
          env.collidesWithSceneObject (stepBack env g.goat) g.tree = true)) :
    ∃ g1 : GameLogic, moveGoat env fuel g keyInput = some g1 ∧
      g1.goat.offset = g.goat.offset ∧ g1.goat.rotation = g.goat.rotation := by
  obtain ⟨n, rfl⟩ : ∃ n, fuel = n + 2 := ⟨fuel - 2, by omega⟩
  have hlo : ¬ g.goat.rotation.y < -FULL_ROTATION := not_lt.mpr hYaw.1
  have hhi : ¬ FULL_ROTATION < g.goat.rotation.y := not_lt.mpr hYaw.2
  have hclamp := clampGoat_of_inside g.goat hInside
  refine ⟨{ g with goat := g.goat }, ?_, rfl, rfl⟩
  rcases hMove with ⟨hl, _, hu, hd, hc⟩ | ⟨hl, hr, hu, hd, hc⟩ | ⟨hl, hr, hu, hd, hc⟩ |
    ⟨hl, hr, hu, hd, hc⟩
  · have hroll := rollback_once env g.tree yawPlus n (yawMinus g.goat) hc
      (by rw [yawPlus_yawMinus]; exact hFree)
    rw [yawPlus_yawMinus] at hroll
    simp [moveGoat, turnGoat, walkGoat, hl, hu, hd, hroll, hlo, hclamp]
  · have hroll := rollback_once env g.tree yawMinus n (yawPlus g.goat) hc
      (by rw [yawMinus_yawPlus]; exact hFree)
    rw [yawMinus_yawPlus] at hroll
    simp [moveGoat, turnGoat, walkGoat, hl, hr, hu, hd, hroll, hhi, hclamp]
  · have hroll := rollback_once env g.tree (stepBack env) n (stepForward env g.goat) hc
      (by rw [stepBack_stepForward]; exact hFree)
    rw [stepBack_stepForward] at hroll
    simp [moveGoat, turnGoat, walkGoat, hl, hr, hu, hroll, hclamp]
  · have hroll := rollback_once env g.tree (stepForward env) n (stepBack env g.goat) hc
      (by rw [stepForward_stepBack]; exact hFree)
    rw [stepForward_stepBack] at hroll
    simp [moveGoat, turnGoat, walkGoat, hl, hr, hu, hd, hroll, hclamp]

/-- An instance of the rollback in exact arithmetic: in the sample game with
the goat one step short of the tree, the step forward collides and is rolled
back. -/
theorem moveGoat_rollback_exact_witness :
    2 ≤ 2 ∧
      sampleEnv.collidesWithSceneObject treeGame.goat treeGame.tree = false ∧
      (MIN_Z + 1 ≤ treeGame.goat.offset.z ∧ treeGame.goat.offset.z ≤ MAX_Z - 1 ∧
        treeGame.goat.offset.z ≤ treeGame.goat.offset.x ∧
        treeGame.goat.offset.x ≤ -treeGame.goat.offset.z) ∧
      (-FULL_ROTATION ≤ treeGame.goat.rotation.y ∧ treeGame.goat.rotation.y ≤ FULL_ROTATION) ∧
      sampleEnv.collidesWithSceneObject (stepForward sampleEnv treeGame.goat) treeGame.tree
        = true ∧
      ∃ g1 : GameLogic, moveGoat sampleEnv 2 treeGame upKey = some g1 ∧
        g1.goat.offset = treeGame.goat.offset ∧ g1.goat.rotation = treeGame.goat.rotation :=
  have hFree : sampleEnv.collidesWithSceneObject treeGame.goat treeGame.tree = false := by
    simp [sampleEnv, noseHit, boxHit, treeGame, sampleGame, objectAt, cosQ, sinQ, GROUND_Y]
    norm_num
  have hInside : MIN_Z + 1 ≤ treeGame.goat.offset.z ∧ treeGame.goat.offset.z ≤ MAX_Z - 1 ∧
      treeGame.goat.offset.z ≤ treeGame.goat.offset.x ∧
      treeGame.goat.offset.x ≤ -treeGame.goat.offset.z := by
    norm_num [treeGame, sampleGame, objectAt, MIN_Z, MAX_Z]
  have hYaw : -FULL_ROTATION ≤ treeGame.goat.rotation.y ∧
      treeGame.goat.rotation.y ≤ FULL_ROTATION := by
    norm_num [treeGame, sampleGame, objectAt, FULL_ROTATION]
  have hHit : sampleEnv.collidesWithSceneObject (stepForward sampleEnv treeGame.goat)
      treeGame.tree = true := by
    simp [sampleEnv, noseHit, boxHit, stepForward, treeGame, sampleGame, objectAt, cosQ, sinQ,
      GROUND_Y, GOAT_SPEED]
    norm_num
  ⟨le_refl 2, hFree, hInside, hYaw, hHit,
    moveGoat_rollback_exact sampleEnv 2 treeGame upKey (le_refl 2) hFree hInside hYaw
      (Or.inr (Or.inr (Or.inl ⟨rfl, rfl, rfl, rfl, hHit⟩)))⟩

/-- C11, the two clamps on the near edge of the bug's arena: at x = 0,
z = MAX_Z the clamp of moveBug leaves z = -1, the clamp of moveGoat moves it
to z = -2. -/
theorem clampGoat_differs_from_clampBug :
    (clampBug edgeObject).offset.z = -1 ∧ (clampGoat edgeObject).offset.z = -2 ∧
      clampGoat edgeObject ≠ clampBug edgeObject := by
  have hb : (clampBug edgeObject).offset.z = -1 := by
    norm_num [clampBug, edgeObject, objectAt, MIN_Z, MAX_Z]
  have hg : (clampGoat edgeObject).offset.z = -2 := by
    norm_num [clampGoat, edgeObject, objectAt, MIN_Z, MAX_Z]
  refine ⟨hb, hg, fun h => ?_⟩
  rw [h, hb] at hg
  norm_num at hg

/-- C11 as amended: the clamp at the end of moveGoat confines the goat to
MIN_Z + 1 ≤ z ≤ MAX_Z - 1 and z ≤ x ≤ -z, an arena one unit shorter in z at
both ends than the bug's; on every position whose z lies in that shorter
range it gives the same position as the clamp at the end of moveBug. -/
theorem clampGoat_arena (p : SceneObject) :
    (MIN_Z + 1 ≤ (clampGoat p).offset.z ∧ (clampGoat p).offset.z ≤ MAX_Z - 1 ∧
        (clampGoat p).offset.z ≤ (clampGoat p).offset.x ∧
        (clampGoat p).offset.x ≤ -(clampGoat p).offset.z) ∧
      (MIN_Z + 1 ≤ p.offset.z → p.offset.z ≤ MAX_Z - 1 → clampGoat p = clampBug p) := by
  constructor
  · simp only [clampGoat, MIN_Z, MAX_Z]
    refine ⟨?_, ?_, ?_, ?_⟩ <;> split_ifs <;> linarith
  · intro h1 h2
    have a1 : ¬ p.offset.z < MIN_Z + 1 := not_lt.mpr h1
    have a2 : ¬ p.offset.z > MAX_Z - 1 := not_lt.mpr h2
    have b1 : ¬ p.offset.z < MIN_Z := by
      simp only [MIN_Z] at h1 ⊢; linarith
    have b2 : ¬ p.offset.z > MAX_Z := by
      simp only [MAX_Z] at h2 ⊢; linarith
    simp only [clampGoat, clampBug, a1, a2, b1, b2, if_false]

/-- C12, two confirms on the start screen: started from two states that
differ in the yaw of the goat and of the bug, the two games begin with
different yaws. -/
theorem confirm_keeps_rotation :
    startA.gameState = START_SCREEN ∧ startB.gameState = START_SCREEN ∧
      process sampleEnv 1 startA enterKey 0
        = Outcome.done (processStartScreen startA enterKey 0) ∧
      process sampleEnv 1 startB enterKey 0
        = Outcome.done (processStartScreen startB enterKey 0) ∧
      (processStartScreen startA enterKey 0).goat.rotation.y
        ≠ (processStartScreen startB enterKey 0).goat.rotation.y ∧
      (processStartScreen startA enterKey 0).bug.rotation.y
        ≠ (processStartScreen startB enterKey 0).bug.rotation.y := by
  refine ⟨rfl, rfl, rfl, rfl, ?_, ?_⟩
  · show (0 : ℚ) ≠ 1
    norm_num
  · show (0 : ℚ) ≠ -3
    norm_num

/-- C12 as amended: a confirm on the start screen resets the offsets of the
goat and of the bug to fixed starting values, the same from any two earlier
states, and leaves the rotation of both objects as it was before the
confirm. -/
theorem confirm_resets_offsets (env : Env) (fuel1 fuel2 : Nat) (g1 g2 : GameLogic)
    (key1 key2 : KeyInput) (now1 now2 : Nat)
    (hState1 : g1.gameState = START_SCREEN) (hState2 : g2.gameState = START_SCREEN)
    (hEnter1 : key1.enter = true) (hEnter2 : key2.enter = true) :
    ∃ a b : GameLogic, process env fuel1 g1 key1 now1 = Outcome.done a ∧
      process env fuel2 g2 key2 now2 = Outcome.done b ∧
      a.goat.offset = b.goat.offset ∧ a.bug.offset = b.bug.offset ∧
      a.goat.offset = { x := -12 / 10, y := GROUND_Y, z := -4 } ∧
      a.bug.offset = { x := 5 / 10, y := GROUND_Y + BUG_FLIGHT_HEIGHT, z := -18 } ∧
      a.goat.rotation = g1.goat.rotation ∧ a.bug.rotation = g1.bug.rotation ∧
      b.goat.rotation = g2.goat.rotation ∧ b.bug.rotation = g2.bug.rotation := by
  refine ⟨{ initGame g1 now1 with gameState := PLAYING },
    { initGame g2 now2 with gameState := PLAYING }, ?_, ?_, rfl, rfl, rfl, rfl, rfl, rfl, rfl, rfl⟩
  · simp [process, hState1, processStartScreen, hEnter1]
  · simp [process, hState2, processStartScreen, hEnter2]

/-- Witness of the amended C12: the two sample start screens. -/
theorem confirm_resets_offsets_witness :
    startA.gameState = START_SCREEN ∧ startB.gameState = START_SCREEN ∧
      enterKey.enter = true ∧
      ∃ a b : GameLogic, process sampleEnv 1 startA enterKey 5 = Outcome.done a ∧
        process sampleEnv 1 startB enterKey 9 = Outcome.done b ∧
        a.goat.offset = b.goat.offset ∧ a.bug.offset = b.bug.offset ∧
        a.goat.offset = { x := -12 / 10, y := GROUND_Y, z := -4 } ∧
        a.bug.offset = { x := 5 / 10, y := GROUND_Y + BUG_FLIGHT_HEIGHT, z := -18 } ∧
        a.goat.rotation = startA.goat.rotation ∧ a.bug.rotation = startA.bug.rotation ∧
        b.goat.rotation = startB.goat.rotation ∧ b.bug.rotation = startB.bug.rotation :=
  ⟨rfl, rfl, rfl,
    confirm_resets_offsets sampleEnv 1 1 startA startB enterKey enterKey 5 9 rfl rfl rfl rfl⟩

/-- C13: from the state the constructor leaves, no sequence of calls of
process, with any inputs, ends in the exception of the default branch, and
every state such a sequence reaches has the game state START_SCREEN or
PLAYING. -/
theorem processAll_never_throws (env : Env) (raw : GameLogic)
    (inputs : List (Nat × KeyInput × Nat)) :
    (∀ what : String, processAll env (construct env raw) inputs ≠ Outcome.thrown what) ∧
      (∀ g : GameLogic, processAll env (construct env raw) inputs = Outcome.done g →
        g.gameState = START_SCREEN ∨ g.gameState = PLAYING) := by
  have key : ∀ (inputs : List (Nat × KeyInput × Nat)) (s : GameLogic),
      (s.gameState = START_SCREEN ∨ s.gameState = PLAYING) →
      (∀ what : String, processAll env s inputs ≠ Outcome.thrown what) ∧
      (∀ g : GameLogic, processAll env s inputs = Outcome.done g →
        g.gameState = START_SCREEN ∨ g.gameState = PLAYING) := by
    intro inputs
    induction inputs with
    | nil =>
      intro s hs
      refine ⟨fun what hw => by simp [processAll] at hw, fun g hg => ?_⟩
      simp only [processAll, Outcome.done.injEq] at hg
      rw [← hg]; exact hs
    | cons i rest ih =>
      intro s hs
      obtain ⟨fuel, keyInput, now⟩ := i
      have hstep := process_gameState_closed env s now fuel keyInput hs
      unfold processAll
      cases hp : process env fuel s keyInput now with
      | done g1 => exact ih g1 (hstep.2 g1 hp)
      | thrown what => exact absurd hp (hstep.1 what)
      | unfinished =>
        exact ⟨fun what hw => by simp at hw, fun g hg => by simp at hg⟩
  exact key inputs (construct env raw) (Or.inl rfl)

/-- C14: a tick of moveBug does not read the tree: with any other tree in
the state the tick gives the same state, apart from the tree itself. -/
theorem moveBug_ignores_tree (env : Env) (g : GameLogic) (t : SceneObject) (now : Nat) :
    moveBug env { g with tree := t } now = { moveBug env g now with tree := t } := by
  unfold moveBug moveBugFrom
  have hd : bugDistance env { g with tree := t } = bugDistance env g := rfl
  have hx : goatRelX env { g with tree := t } = goatRelX env g := rfl
  have hz : goatRelZ env { g with tree := t } = goatRelZ env g := rfl
  have hdot : ∀ rx rz, dotProduct env { g with tree := t } rx rz = dotProduct env g rx rz :=
    fun _ _ => rfl
  rw [hd, hx, hz, hdot, countFrames_tree, decideBugState_tree]
  rfl

/-- C17: on the start screen, with the confirm flag not set, process ends and
leaves the whole state as it was, whatever the other flags are. -/
theorem process_start_screen_waits (env : Env) (fuel : Nat) (g : GameLogic)
    (keyInput : KeyInput) (now : Nat)
    (hState : g.gameState = START_SCREEN) (hEnter : keyInput.enter = false) :
    process env fuel g keyInput now = Outcome.done g := by
  simp [process, hState, processStartScreen, hEnter]

/-- Witness of C17: the sample start screen and the key input with only `up`
pressed. -/
theorem process_start_screen_waits_witness :
    startA.gameState = START_SCREEN ∧ upKey.enter = false ∧
      process sampleEnv 3 startA upKey 40 = Outcome.done startA :=
  ⟨rfl, rfl, process_start_screen_waits sampleEnv 3 startA upKey 40 rfl rfl⟩

/-- C20: after every tick of moveBug the roll of the bug is -BUG_DIVE_TILT
when the state after the tick is DIVING_DOWN, BUG_DIVE_TILT when it is
DIVING_UP, and 0 when it is FLYING_STRAIGHT or TURNING, whatever it was
before. -/
theorem moveBug_tilt (env : Env) (g : GameLogic) (now : Nat) :
    ((moveBug env g now).bugState = BugState.DIVING_DOWN →
        (moveBug env g now).bug.rotation.z = -BUG_DIVE_TILT) ∧
      ((moveBug env g now).bugState = BugState.DIVING_UP →
        (moveBug env g now).bug.rotation.z = BUG_DIVE_TILT) ∧
      ((moveBug env g now).bugState = BugState.FLYING_STRAIGHT →
        (moveBug env g now).bug.rotation.z = 0) ∧
      ((moveBug env g now).bugState = BugState.TURNING →
        (moveBug env g now).bug.rotation.z = 0) := by
  refine ⟨fun h => ?_, fun h => ?_, fun h => ?_, fun h => ?_⟩ <;>
    rw [moveBug_rotation_z, h] <;> simp

/-- C15: for every input string and separator, getTokens returns the number
of occurrences of the separator plus one and writes exactly that many tokens;
"a-b-c-d" with '-' gives 4, and a string without the separator, the empty
string included, gives 1. -/
theorem getTokens_count (input : List Char) (sep : Char) :
    (getTokens input sep).1 = input.count sep + 1 ∧
      (getTokens input sep).2.length = input.count sep + 1 ∧
      (sep ∉ input → (getTokens input sep).1 = 1) ∧
      (getTokens [] sep).1 = 1 ∧
      (getTokens "a-b-c-d".toList '-').1 = 4 := by
  have h1 : (getTokens input sep).1 = input.count sep + 1 := by
    show countLoop input sep + 1 = _
    rw [countLoop_eq_count]
  refine ⟨h1, ?_, fun h => ?_, rfl, by decide⟩
  · show (fillTokens input sep (countLoop input sep + 1) 0).length = _
    rw [fillTokens_length, countLoop_eq_count]
  · rw [h1, List.count_eq_zero.mpr h]

/-- C16: for every input string and separator, no token getTokens writes
holds the separator, and the tokens joined by the separator give the input
back; the second token of "a-b-c-d" is "b", and adjacent separators give empty
tokens. -/
theorem getTokens_fields (input : List Char) (sep : Char) :
    (∀ t ∈ (getTokens input sep).2, sep ∉ t) ∧
      List.intercalate [sep] (getTokens input sep).2 = input ∧
      (getTokens "a-b-c-d".toList '-').2 = ["a".toList, "b".toList, "c".toList, "d".toList] ∧
      (getTokens "a--b".toList '-').2 = ["a".toList, [], "b".toList] := by
  have h := fillTokens_fields input sep (input.count sep) 0 (by simp)
  have e : (getTokens input sep).2 = fillTokens input sep (input.count sep + 1) 0 := by
    show fillTokens input sep (countLoop input sep + 1) 0 = _
    rw [countLoop_eq_count]
  rw [e]
  refine ⟨h.1, ?_, by decide, by decide⟩
  simpa using h.2

/-- C18: pointIsWithin is true exactly when some box of the set contains the
point: the point, taken to the local space of the set, lies on each of the
three axes between the minimum and the maximum of the vertices of that box.
A point strictly between the two on all axes of some box gives true, a point
that on some axis is strictly below or strictly above all vertices of each
box gives false. -/
theorem pointIsWithin_iff (env : Env) (set : BoundingBoxes) (x y z : ℚ) :
    (pointIsWithin env set x y z = true ↔
      ∃ box ∈ boxesOf set, ∀ axis < 3,
        (∃ lo ∈ axisValues box axis, (∀ a ∈ axisValues box axis, lo ≤ a) ∧
          lo ≤ coord (toLocal env set { x := x, y := y, z := z }) axis) ∧
        (∃ hi ∈ axisValues box axis, (∀ a ∈ axisValues box axis, a ≤ hi) ∧
          coord (toLocal env set { x := x, y := y, z := z }) axis ≤ hi)) ∧
      ((∃ box ∈ boxesOf set, ∀ axis < 3,
        (∃ lo ∈ axisValues box axis, (∀ a ∈ axisValues box axis, lo ≤ a) ∧
          lo < coord (toLocal env set { x := x, y := y, z := z }) axis) ∧
        (∃ hi ∈ axisValues box axis, (∀ a ∈ axisValues box axis, a ≤ hi) ∧
          coord (toLocal env set { x := x, y := y, z := z }) axis < hi)) →
        pointIsWithin env set x y z = true) ∧
      ((∀ box ∈ boxesOf set, ∃ axis < 3,
        (∀ a ∈ axisValues box axis,
          coord (toLocal env set { x := x, y := y, z := z }) axis < a) ∨
        (∀ a ∈ axisValues box axis,
          a < coord (toLocal env set { x := x, y := y, z := z }) axis)) →
        pointIsWithin env set x y z = false) := by
  have hiff : pointIsWithin env set x y z = true ↔
      ∃ box ∈ boxesOf set, ∀ axis < 3,
        (∃ lo ∈ axisValues box axis, (∀ a ∈ axisValues box axis, lo ≤ a) ∧
          lo ≤ coord (toLocal env set { x := x, y := y, z := z }) axis) ∧
        (∃ hi ∈ axisValues box axis, (∀ a ∈ axisValues box axis, a ≤ hi) ∧
          coord (toLocal env set { x := x, y := y, z := z }) axis ≤ hi) := by
    unfold pointIsWithin
    rw [List.any_eq_true]
    constructor
    · rintro ⟨box, hbox, hc⟩
      refine ⟨box, hbox, fun axis haxis => ?_⟩
      exact (axisWithin_iff box axis _).mp ((boxContains_iff box _).mp hc axis haxis)
    · rintro ⟨box, hbox, hc⟩
      refine ⟨box, hbox, (boxContains_iff box _).mpr fun axis haxis => ?_⟩
      exact (axisWithin_iff box axis _).mpr (hc axis haxis)
  refine ⟨hiff, fun hin => ?_, fun hout => ?_⟩
  · apply hiff.mpr
    obtain ⟨box, hbox, hc⟩ := hin
    refine ⟨box, hbox, fun axis haxis => ?_⟩
    obtain ⟨⟨lo, m1, b1, h1⟩, ⟨hi, m2, b2, h2⟩⟩ := hc axis haxis
    exact ⟨⟨lo, m1, b1, le_of_lt h1⟩, ⟨hi, m2, b2, le_of_lt h2⟩⟩
  · cases hp : pointIsWithin env set x y z with
    | false => rfl
    | true =>
      exfalso
      obtain ⟨box, hbox, hc⟩ := hiff.mp hp
      obtain ⟨axis, haxis, hside⟩ := hout box hbox
      obtain ⟨⟨lo, m1, _, h1⟩, ⟨hi, m2, _, h2⟩⟩ := hc axis haxis
      rcases hside with hs | hs
      · exact absurd (hs lo m1) (not_lt.mpr h1)
      · exact absurd (hs hi m2) (not_lt.mpr h2)

/-- C19: boxesAreWithin on a set is true exactly when some vertex of the other
set, placed by the offset and rotation of that other set, passes the point
test of this set; the query is one-directional: for the cube of half width 10
and the cube of half width 1 around the same point the two orders give
different results. -/
theorem boxesAreWithin_one_directional (env : Env) (set otherBoxes : BoundingBoxes) :
    (boxesAreWithin env set otherBoxes = true ↔
      ∃ v ∈ otherBoxes.vertices,
        pointIsWithin env set (toWorld env otherBoxes (vertexPoint v)).x
          (toWorld env otherBoxes (vertexPoint v)).y
          (toWorld env otherBoxes (vertexPoint v)).z = true) ∧
      boxesAreWithin sampleEnv (cubeSet 10) (cubeSet 1) = true ∧
      boxesAreWithin sampleEnv (cubeSet 1) (cubeSet 10) = false := by
  refine ⟨?_, ?_, ?_⟩
  · unfold boxesAreWithin
    rw [List.any_eq_true]
  · simp [boxesAreWithin, pointIsWithin, boxesOf, cubeSet, cubeVertices, toWorld, toLocal,
      rotateX, rotateY, rotateZ, sampleEnv, cosQ_zero, sinQ_zero, vertexPoint, coord,
      boxContains, axisWithin, axisValues, lowest, highest, List.range, List.range.loop]
    norm_num
  · simp [boxesAreWithin, pointIsWithin, boxesOf, cubeSet, cubeVertices, toWorld, toLocal,
      rotateX, rotateY, rotateZ, sampleEnv, cosQ_zero, sinQ_zero, vertexPoint, coord,
      boxContains, axisWithin, axisValues, lowest, highest, List.range, List.range.loop]

/-- C21, a turn step at the end of a full rotation: in the sample game
`turnGame` the yaw is -6.24, the state after the tick is TURNING, and the yaw
after the tick is 0, not -6.24 - 0.12. -/
theorem moveBug_turn_wraps_yaw :
    turnGame.bug.rotation.y = -624 / 100 ∧
      (moveBug sampleEnv turnGame 0).bugState = BugState.TURNING ∧
      (moveBug sampleEnv turnGame 0).bug.rotation.y = 0 ∧
      (moveBug sampleEnv turnGame 0).bug.rotation.y
        ≠ turnGame.bug.rotation.y - BUG_ROTATION_SPEED := by
  have hs : (moveBug sampleEnv turnGame 0).bugState = BugState.TURNING := by
    rw [moveBug_bugState, bugDistance_turnGame, flt_dotPosDir_turnGame]
    norm_num [turnGame, sampleGame, BUG_START_DIVE_DISTANCE]
    rfl
  have hy : (moveBug sampleEnv turnGame 0).bug.rotation.y = 0 := by
    rw [moveBug_rotation_y, hs]
    norm_num [turnGame, sampleGame, objectAt, BUG_ROTATION_SPEED, FULL_ROTATION]
  refine ⟨rfl, hs, hy, ?_⟩
  rw [hy]
  norm_num [turnGame, sampleGame, objectAt, BUG_ROTATION_SPEED]

/-- C21 as amended: the yaw after a tick is the yaw before it, lowered by
BUG_ROTATION_SPEED when the state after the tick is TURNING, and then set to 0
when that value is below -FULL_ROTATION.  So a tick that ends in TURNING lowers
the yaw by BUG_ROTATION_SPEED unless the result would be below -FULL_ROTATION,
and a tick that does not end in TURNING leaves a yaw of at least
-FULL_ROTATION unchanged. -/
theorem moveBug_yaw_step (env : Env) (g : GameLogic) (now : Nat) :
    ((moveBug env g now).bugState = BugState.TURNING →
        -FULL_ROTATION ≤ g.bug.rotation.y - BUG_ROTATION_SPEED →
        (moveBug env g now).bug.rotation.y = g.bug.rotation.y - BUG_ROTATION_SPEED) ∧
      ((moveBug env g now).bugState = BugState.TURNING →
        g.bug.rotation.y - BUG_ROTATION_SPEED < -FULL_ROTATION →
        (moveBug env g now).bug.rotation.y = 0) ∧
      ((moveBug env g now).bugState ≠ BugState.TURNING →
        -FULL_ROTATION ≤ g.bug.rotation.y →
        (moveBug env g now).bug.rotation.y = g.bug.rotation.y) ∧
      ((moveBug env g now).bugState ≠ BugState.TURNING →
        g.bug.rotation.y < -FULL_ROTATION →
        (moveBug env g now).bug.rotation.y = 0) := by
  refine ⟨fun hs h => ?_, fun hs h => ?_, fun hs h => ?_, fun hs h => ?_⟩
  · rw [moveBug_rotation_y, if_pos hs, if_neg (not_lt.mpr h)]
  · rw [moveBug_rotation_y, if_pos hs, if_pos h]
  · rw [moveBug_rotation_y, if_neg hs, if_neg (not_lt.mpr h)]
  · rw [moveBug_rotation_y, if_neg hs, if_pos h]

/-- C22: in every tick, whatever the state of the bug, the position of the
bug after the tick is the arena clamp of the point reached from the position
at the start of the tick by the step of BUG_SPEED along the yaw the bug has
after the tick. -/
theorem moveBug_forward_motion (env : Env) (g : GameLogic) (now : Nat) :
    ∃ b : SceneObject,
      b.offset.x = g.bug.offset.x
        - env.cos (moveBug env g now).bug.rotation.y * BUG_SPEED ∧
      b.offset.z = g.bug.offset.z
        - env.sin (moveBug env g now).bug.rotation.y * BUG_SPEED ∧
      (moveBug env g now).bug = clampBug b := by
  refine ⟨advanceBug env (representBugState (decideBugState env now (bugDistance env g)
    (dotPosDir env g) (countFrames g))).bug, ?_, ?_, rfl⟩
  · show (representBugState _).bug.offset.x - _ = _
    rw [representBugState_offset_x, decideBugState_offset_x, countFrames_bug]
    rfl
  · show (representBugState _).bug.offset.z - _ = _
    rw [representBugState_offset_z, decideBugState_offset_z, countFrames_bug]
    rfl

/-- C23: a tick whose resulting state is DIVING_DOWN lowers the altitude of
the bug by bugVerticalSpeed, a tick whose resulting state is DIVING_UP raises
it by bugVerticalSpeed; the tick that finds a bug that is not diving within
the dive distance ends in DIVING_DOWN and lowers the altitude already; the
vertical speed is the one the constructor set. -/
theorem moveBug_vertical_step (env : Env) (g : GameLogic) (now : Nat) :
    ((moveBug env g now).bugState = BugState.DIVING_DOWN →
        (moveBug env g now).bug.offset.y = g.bug.offset.y - g.bugVerticalSpeed) ∧
      ((moveBug env g now).bugState = BugState.DIVING_UP →
        (moveBug env g now).bug.offset.y = g.bug.offset.y + g.bugVerticalSpeed) ∧
      (g.bugState ≠ BugState.DIVING_DOWN → g.bugState ≠ BugState.DIVING_UP →
        bugDistance env g ≤ BUG_START_DIVE_DISTANCE →
        (moveBug env g now).bugState = BugState.DIVING_DOWN ∧
        (moveBug env g now).bug.offset.y = g.bug.offset.y - g.bugVerticalSpeed) ∧
      (moveBug env g now).bugVerticalSpeed = g.bugVerticalSpeed ∧
      (∀ raw : GameLogic, (construct env raw).bugVerticalSpeed
        = env.ROUND_2_DECIMAL (BUG_FLIGHT_HEIGHT / (BUG_DIVE_DURATION : ℚ))) := by
  have hdown : (moveBug env g now).bugState = BugState.DIVING_DOWN →
      (moveBug env g now).bug.offset.y = g.bug.offset.y - g.bugVerticalSpeed := by
    intro h
    rw [moveBug_offset_y, if_pos h]
  refine ⟨hdown, fun h => ?_, fun h1 h2 hd => ?_, moveBug_bugVerticalSpeed env g now,
    fun raw => rfl⟩
  · have hne : ¬ BugState.DIVING_UP = BugState.DIVING_DOWN := by decide
    rw [moveBug_offset_y, h, if_neg hne, if_pos rfl]
  · have hs : (moveBug env g now).bugState = BugState.DIVING_DOWN := by
      rw [moveBug_bugState, if_neg h1, if_neg h2, if_neg (not_lt.mpr hd)]
    exact ⟨hs, hdown hs⟩

/-- C24: while the bug dives, down or up, its state after the tick is given by
its state, its previous state and its frame counter at the start of the tick:
two ticks that agree on these three end in the same state of the bug, whatever
else differs (the goat, the distance, the alignment, the collaborators). -/
theorem moveBug_dive_state_independent (env1 env2 : Env) (g1 g2 : GameLogic)
    (now1 now2 : Nat)
    (hDiving : g1.bugState = BugState.DIVING_DOWN ∨ g1.bugState = BugState.DIVING_UP)
    (hState : g1.bugState = g2.bugState)
    (hPrev : g1.bugPreviousState = g2.bugPreviousState)
    (hFrames : g1.bugFramesInCurrentState = g2.bugFramesInCurrentState) :
    (moveBug env1 g1 now1).bugState = (moveBug env2 g2 now2).bugState := by
  rw [moveBug_bugState, moveBug_bugState, ← hState, ← hPrev, ← hFrames]
  rcases hDiving with h | h
  · simp only [h, if_true]
  · have hne : ¬ BugState.DIVING_UP = BugState.DIVING_DOWN := by decide
    simp only [h, hne, if_true, if_false]

/-- Witness of C24: the sample game during an ascent, and the same state with
the goat far from the bug. -/
theorem moveBug_dive_state_independent_witness :
    (ascentCatch.bugState = BugState.DIVING_DOWN ∨
        ascentCatch.bugState = BugState.DIVING_UP) ∧
      ascentCatch.bugState
        = ({ ascentCatch with goat := objectAt 9 GROUND_Y (-20) 1 } : GameLogic).bugState ∧
      ascentCatch.bugPreviousState
        = ({ ascentCatch with goat := objectAt 9 GROUND_Y (-20) 1 } : GameLogic).bugPreviousState ∧
      ascentCatch.bugFramesInCurrentState
        = ({ ascentCatch with goat := objectAt 9 GROUND_Y (-20) 1 } :
            GameLogic).bugFramesInCurrentState ∧
      (moveBug sampleEnv ascentCatch 0).bugState
        = (moveBug sampleEnv { ascentCatch with goat := objectAt 9 GROUND_Y (-20) 1 } 7).bugState :=
  ⟨Or.inr rfl, rfl, rfl, rfl,
    moveBug_dive_state_independent sampleEnv sampleEnv ascentCatch
      { ascentCatch with goat := objectAt 9 GROUND_Y (-20) 1 } 0 7 (Or.inr rfl) rfl rfl rfl⟩

/-- C27: in one tick the bug enters DIVING_UP only from DIVING_DOWN or
DIVING_UP, does not go from DIVING_UP to DIVING_DOWN, does not go from
DIVING_DOWN to FLYING_STRAIGHT or TURNING, and does not go from DIVING_UP to
TURNING. -/
theorem moveBug_transition_graph (env : Env) (g : GameLogic) (now : Nat) :
    ((moveBug env g now).bugState = BugState.DIVING_UP →
        g.bugState = BugState.DIVING_DOWN ∨ g.bugState = BugState.DIVING_UP) ∧
      (g.bugState = BugState.DIVING_UP →
        (moveBug env g now).bugState ≠ BugState.DIVING_DOWN) ∧
      (g.bugState = BugState.DIVING_DOWN →
        (moveBug env g now).bugState ≠ BugState.FLYING_STRAIGHT ∧
        (moveBug env g now).bugState ≠ BugState.TURNING) ∧
      (g.bugState = BugState.DIVING_UP →
        (moveBug env g now).bugState ≠ BugState.TURNING) := by
  rw [moveBug_bugState]
  refine ⟨?_, ?_, ?_, ?_⟩
  · intro h
    by_contra hc
    rw [not_or] at hc
    rw [if_neg hc.1, if_neg hc.2] at h
    split_ifs at h
  · intro h
    have hne : ¬ BugState.DIVING_UP = BugState.DIVING_DOWN := by decide
    simp only [h, hne, if_true, if_false]
    split_ifs <;> decide
  · intro h
    simp only [h, if_true]
    constructor <;> split_ifs <;> decide
  · intro h
    have hne : ¬ BugState.DIVING_UP = BugState.DIVING_DOWN := by decide
    simp only [h, hne, if_true, if_false]
    split_ifs <;> decide

/-- C28: a yaw of the bug within [-FULL_ROTATION, 0] before a tick is within
[-FULL_ROTATION, 0] after it; a turn step that would take the yaw below
-FULL_ROTATION sets it to 0. -/
theorem moveBug_yaw_range (env : Env) (g : GameLogic) (now : Nat)
    (hLow : -FULL_ROTATION ≤ g.bug.rotation.y) (hHigh : g.bug.rotation.y ≤ 0) :
    -FULL_ROTATION ≤ (moveBug env g now).bug.rotation.y ∧
      (moveBug env g now).bug.rotation.y ≤ 0 ∧
      ((moveBug env g now).bugState = BugState.TURNING →
        g.bug.rotation.y - BUG_ROTATION_SPEED < -FULL_ROTATION →
        (moveBug env g now).bug.rotation.y = 0) := by
  have hfull : -FULL_ROTATION ≤ 0 := by norm_num [FULL_ROTATION]
  have hspeed : (0 : ℚ) ≤ BUG_ROTATION_SPEED := by norm_num [BUG_ROTATION_SPEED]
  refine ⟨?_, ?_, fun hs h => ?_⟩
  · rw [moveBug_rotation_y]
    split_ifs <;> linarith
  · rw [moveBug_rotation_y]
    split_ifs <;> linarith
  · rw [moveBug_rotation_y, if_pos hs, if_pos h]

/-- Witness of C28: the sample game, where the yaw of the bug is 0. -/
theorem moveBug_yaw_range_witness :
    -FULL_ROTATION ≤ sampleGame.bug.rotation.y ∧ sampleGame.bug.rotation.y ≤ 0 ∧
      -FULL_ROTATION ≤ (moveBug sampleEnv sampleGame 0).bug.rotation.y ∧
      (moveBug sampleEnv sampleGame 0).bug.rotation.y ≤ 0 ∧
      ((moveBug sampleEnv sampleGame 0).bugState = BugState.TURNING →
        sampleGame.bug.rotation.y - BUG_ROTATION_SPEED < -FULL_ROTATION →
        (moveBug sampleEnv sampleGame 0).bug.rotation.y = 0) :=
  have hLow : -FULL_ROTATION ≤ sampleGame.bug.rotation.y := by
    norm_num [sampleGame, objectAt, FULL_ROTATION]
  have hHigh : sampleGame.bug.rotation.y ≤ 0 := by
    norm_num [sampleGame, objectAt]
  ⟨hLow, hHigh, moveBug_yaw_range sampleEnv sampleGame 0 hLow hHigh⟩

/-- C29: the two bearing values reach the result of a tick only through the
test `dotPosDir < 0.98`: two pairs of values with the same outcome of the test
give the same state after the tick; and when the distance is at most the dive
distance, or when the bug dives, the tick gives the same state whatever the
two values are. -/
theorem moveBug_bearing_only_through_test (env : Env) (g : GameLogic) (now : Nat)
    (relX relZ relX2 relZ2 : Option ℚ) :
    (flt (dotProduct env g relX relZ) (98 / 100)
          = flt (dotProduct env g relX2 relZ2) (98 / 100) →
        moveBugFrom env g now relX relZ = moveBugFrom env g now relX2 relZ2) ∧
      (bugDistance env g ≤ BUG_START_DIVE_DISTANCE →
        moveBugFrom env g now relX relZ = moveBug env g now) ∧
      (g.bugState = BugState.DIVING_DOWN ∨ g.bugState = BugState.DIVING_UP →
        moveBugFrom env g now relX relZ = moveBug env g now) := by
  refine ⟨fun h => ?_, fun h => ?_, fun h => ?_⟩
  · unfold moveBugFrom
    rw [decideBugState_dot_test env (countFrames g) now (bugDistance env g) _ _ h]
  · unfold moveBug moveBugFrom
    rw [decideBugState_dot_unused env (countFrames g) now (bugDistance env g)
      (dotProduct env g relX relZ)
      (dotProduct env g (goatRelX env g) (goatRelZ env g)) h]
  · unfold moveBug moveBugFrom
    rw [decideBugState_dot_unused_diving env (countFrames g) now (bugDistance env g)
      (dotProduct env g relX relZ)
      (dotProduct env g (goatRelX env g) (goatRelZ env g))
      (by rw [countFrames_bugState]; exact h)]

/-- C25: in every state reached from initGame by ticks of moveBug the bug is
`k` vertical steps below the flight height, for a `k` from 0 to 16, and the
tick that ends an ascent finds the bug at the flight height already, so that
the assignment of the flight height in it changes nothing.  A dive started
from such a state descends in its first 16 ticks and ascends in the next 16:
`n` ticks after the tick that started it the bug is `n + 1` steps down for
`n ≤ 15` and `31 - n` steps down for `16 ≤ n ≤ 31`. -/
theorem moveBug_dive_depth_bounded (env : Env) (g : GameLogic) (now0 : Nat)
    (clocks : List Nat) :
    (∃ k : Nat, k ≤ 16 ∧
        (moveBugTicks env (initGame g now0) clocks).bug.offset.y
          = GROUND_Y + BUG_FLIGHT_HEIGHT
            - (k : ℚ) * (moveBugTicks env (initGame g now0) clocks).bugVerticalSpeed) ∧
      ((moveBugTicks env (initGame g now0) clocks).bugState = BugState.DIVING_UP →
        (if (moveBugTicks env (initGame g now0) clocks).bugState
              = (moveBugTicks env (initGame g now0) clocks).bugPreviousState
          then (moveBugTicks env (initGame g now0) clocks).bugFramesInCurrentState + 1
          else 1) > BUG_DIVE_DURATION / 2 →
        (moveBugTicks env (initGame g now0) clocks).bug.offset.y
          = GROUND_Y + BUG_FLIGHT_HEIGHT) ∧
      (∀ (now : Nat) (more : List Nat),
        ((moveBugTicks env (initGame g now0) clocks).bugState = BugState.FLYING_STRAIGHT ∨
          (moveBugTicks env (initGame g now0) clocks).bugState = BugState.TURNING) →
        (moveBug env (moveBugTicks env (initGame g now0) clocks) now).bugState
          = BugState.DIVING_DOWN →
        (more.length ≤ 15 →
          (moveBugTicks env (moveBug env (moveBugTicks env (initGame g now0) clocks) now)
              more).bug.offset.y
            = GROUND_Y + BUG_FLIGHT_HEIGHT - ((more.length : ℚ) + 1) * g.bugVerticalSpeed) ∧
        (16 ≤ more.length → more.length ≤ 31 →
          (moveBugTicks env (moveBug env (moveBugTicks env (initGame g now0) clocks) now)
              more).bug.offset.y
            = GROUND_Y + BUG_FLIGHT_HEIGHT
              - (31 - (more.length : ℚ)) * g.bugVerticalSpeed)) := by
  have hinv := flightInv_ticks env clocks (initGame g now0) (flightInv_initGame g now0)
  have hvs : (moveBugTicks env (initGame g now0) clocks).bugVerticalSpeed
      = g.bugVerticalSpeed := by
    rw [moveBugTicks_bugVerticalSpeed]; rfl
  refine ⟨flightInv_depth _ hinv, flightInv_end_of_dive _ hinv, ?_⟩
  intro now more hState hDive
  have hy := flightInv_nominal _ hinv hState
  have hstart := diveAltitude_start env _ now hState hy hDive
  have hrun : more.length ≤ 31 →
      (moveBugTicks env (moveBug env (moveBugTicks env (initGame g now0) clocks) now)
          more).bug.offset.y
        = GROUND_Y + BUG_FLIGHT_HEIGHT - (diveDepth more.length : ℚ) * g.bugVerticalSpeed := by
    intro hl
    have h := diveAltitude_ticks env more 0 _ hstart (by omega)
    rw [Nat.zero_add] at h
    rw [h.2, moveBugTicks_bugVerticalSpeed, moveBug_bugVerticalSpeed, hvs]
  constructor
  · intro h15
    rw [hrun (by omega)]
    simp [diveDepth, h15]
  · intro h16 h31
    rw [hrun h31]
    have e : diveDepth more.length = 31 - more.length := by
      unfold diveDepth
      rw [if_neg (by omega)]
    rw [e, Nat.cast_sub h31]
    push_cast
    ring

/-- C26: in every state reached from initGame by ticks of moveBug in which the
bug is FLYING_STRAIGHT or TURNING, its altitude is GROUND_Y +
BUG_FLIGHT_HEIGHT. -/
theorem moveBug_nominal_altitude (env : Env) (g : GameLogic) (now0 : Nat)
    (clocks : List Nat)
    (hState :
      (moveBugTicks env (initGame g now0) clocks).bugState = BugState.FLYING_STRAIGHT ∨
        (moveBugTicks env (initGame g now0) clocks).bugState = BugState.TURNING) :
    (moveBugTicks env (initGame g now0) clocks).bug.offset.y
      = GROUND_Y + BUG_FLIGHT_HEIGHT :=
  flightInv_nominal _
    (flightInv_ticks env clocks (initGame g now0) (flightInv_initGame g now0)) hState

/-- Witness of C26: the first tick of the sample game after initGame, with the
goat 14.1 away, leaves the bug FLYING_STRAIGHT or TURNING. -/
theorem moveBug_nominal_altitude_witness :
    ((moveBugTicks sampleEnv (initGame sampleGame 0) [40]).bugState
          = BugState.FLYING_STRAIGHT ∨
        (moveBugTicks sampleEnv (initGame sampleGame 0) [40]).bugState = BugState.TURNING) ∧
      (moveBugTicks sampleEnv (initGame sampleGame 0) [40]).bug.offset.y
        = GROUND_Y + BUG_FLIGHT_HEIGHT :=
  have hState : (moveBugTicks sampleEnv (initGame sampleGame 0) [40]).bugState
        = BugState.FLYING_STRAIGHT ∨
      (moveBugTicks sampleEnv (initGame sampleGame 0) [40]).bugState = BugState.TURNING := by
    show (moveBug sampleEnv (initGame sampleGame 0) 40).bugState = _ ∨
      (moveBug sampleEnv (initGame sampleGame 0) 40).bugState = _
    have hd : bugDistance sampleEnv (initGame sampleGame 0) > BUG_START_DIVE_DISTANCE := by
      rw [bugDistance_initGame]
      norm_num [BUG_START_DIVE_DISTANCE]
    have hD : ¬ (initGame sampleGame 0).bugState = BugState.DIVING_DOWN := by decide
    have hU : ¬ (initGame sampleGame 0).bugState = BugState.DIVING_UP := by decide
    rw [moveBug_bugState, if_neg hD, if_neg hU, if_pos hd]
    by_cases hf : flt (dotPosDir sampleEnv (initGame sampleGame 0)) (98 / 100) = true
    · rw [if_pos hf]; exact Or.inr rfl
    · rw [if_neg hf]; exact Or.inl rfl
  ⟨hState, moveBug_nominal_altitude sampleEnv sampleGame 0 [40] hState⟩

/-- C30: generateTexture returns the new handle in every case and registers
it under the name only when the name is not registered yet, after which
getTextureHandle gives that handle; when the name is registered already the
map is left as it was and getTextureHandle still gives the earlier handle;
other names are not affected.  getTextureHandle of a name that is not
registered is 0, and after deleteTexture of a name getTextureHandle of that
name is 0 while every other name keeps its handle. -/
theorem texture_registry (textures : Textures) (name other : String) (textureHandle : Nat) :
    (generateTexture textures name textureHandle).1 = textureHandle ∧
      (findTexture textures name = none →
        getTextureHandle (generateTexture textures name textureHandle).2 name
          = textureHandle) ∧
      (∀ earlier : Nat, findTexture textures name = some earlier →
        (generateTexture textures name textureHandle).2 = textures ∧
        getTextureHandle (generateTexture textures name textureHandle).2 name = earlier) ∧
      (other ≠ name →
        getTextureHandle (generateTexture textures name textureHandle).2 other
          = getTextureHandle textures other) ∧
      (findTexture textures name = none → getTextureHandle textures name = 0) ∧
      getTextureHandle (deleteTexture textures name) name = 0 ∧
      (other ≠ name →
        getTextureHandle (deleteTexture textures name) other
          = getTextureHandle textures other) := by
  refine ⟨rfl, fun h => ?_, fun earlier h => ?_, fun hne => ?_, fun h => ?_, ?_, fun hne => ?_⟩
  · unfold getTextureHandle generateTexture
    rw [findTexture_insertTexture_new textures name textureHandle h]
  · have hgen : (generateTexture textures name textureHandle).2 = textures :=
      insertTexture_registered textures name textureHandle earlier h
    refine ⟨hgen, ?_⟩
    rw [hgen]
    unfold getTextureHandle
    rw [h]
  · unfold getTextureHandle generateTexture
    rw [findTexture_insertTexture_other textures name other textureHandle hne]
  · unfold getTextureHandle
    rw [h]
  · unfold getTextureHandle deleteTexture
    cases h : findTexture textures name with
    | some earlier =>
      show (match findTexture (eraseTexture textures name) name with
        | some handle => handle
        | none => 0) = 0
      rw [findTexture_eraseTexture_self]
    | none =>
      show (match findTexture textures name with
        | some handle => handle
        | none => 0) = 0
      rw [h]
  · unfold getTextureHandle deleteTexture
    cases h : findTexture textures name with
    | some earlier =>
      show (match findTexture (eraseTexture textures name) other with
        | some handle => handle
        | none => 0) = _
      rw [findTexture_eraseTexture_other textures name other hne]
    | none => rfl

/-- C6, the rollback in the arithmetic of the machine: the goat stands at
x = 1, z = -2 with yaw 0, clear of the tree and inside its clamp region; the
step back (`down` alone) collides with the tree; the loop ends after one pass,
and the goat is left at x = 16777215 / 16777216 (0.99999994), not at x = 1,
because 1.0f + 0.05f - 0.05f is not 1.0f. -/
theorem moveGoat_rollback_rounds :
    sampleEnv.collidesWithSceneObject backGame.goat backGame.tree = false ∧
      (MIN_Z + 1 ≤ backGame.goat.offset.z ∧ backGame.goat.offset.z ≤ MAX_Z - 1 ∧
        backGame.goat.offset.z ≤ backGame.goat.offset.x ∧
        backGame.goat.offset.x ≤ -backGame.goat.offset.z) ∧
      (-FULL_ROTATION ≤ backGame.goat.rotation.y ∧
        backGame.goat.rotation.y ≤ FULL_ROTATION) ∧
      (downKey.left = false ∧ downKey.right = false ∧ downKey.up = false ∧
        downKey.down = true) ∧
      sampleEnv.collidesWithSceneObject (stepBackRounded float32 sampleEnv backGame.goat)
        backGame.tree = true ∧
      backGame.goat.offset.x = 1 ∧
      ∃ g1 : GameLogic, moveGoatRounded float32 sampleEnv 2 backGame downKey = some g1 ∧
        g1.goat.offset.x = 16777215 / 16777216 ∧
        g1.goat.offset ≠ backGame.goat.offset := by
  have hgoat : backGame.goat = objectAt 1 GROUND_Y (-2) 0 := rfl
  have htree : backGame.tree = objectAt (52 / 100) GROUND_Y (-2) 0 := rfl
  have hcand : stepBackRounded float32 sampleEnv backGame.goat
      = objectAt (4404019 / 4194304) GROUND_Y (-2) 0 := by
    rw [hgoat, stepBackRounded_yaw_zero, float32_one_plus_speed, float32_neg_two]
  have hundo : stepForwardRounded float32 sampleEnv (objectAt (4404019 / 4194304) GROUND_Y (-2) 0)
      = objectAt (16777215 / 16777216) GROUND_Y (-2) 0 := by
    rw [stepForwardRounded_yaw_zero, float32_back_again, float32_neg_two]
  have hFree : sampleEnv.collidesWithSceneObject backGame.goat backGame.tree = false := by
    rw [hgoat, htree]
    simp [sampleEnv, noseHit, boxHit, objectAt, cosQ_zero, sinQ_zero, GROUND_Y]
    norm_num
  have hHit : sampleEnv.collidesWithSceneObject
      (stepBackRounded float32 sampleEnv backGame.goat) backGame.tree = true := by
    rw [hcand, htree]
    simp [sampleEnv, noseHit, boxHit, objectAt, cosQ_zero, sinQ_zero, GROUND_Y]
    norm_num
  have hClear : sampleEnv.collidesWithSceneObject
      (stepForwardRounded float32 sampleEnv (stepBackRounded float32 sampleEnv backGame.goat))
      backGame.tree = false := by
    rw [hcand, hundo, htree]
    simp [sampleEnv, noseHit, boxHit, objectAt, cosQ_zero, sinQ_zero, GROUND_Y]
    norm_num
  have hroll := rollback_once sampleEnv backGame.tree (stepForwardRounded float32 sampleEnv) 0
    (stepBackRounded float32 sampleEnv backGame.goat) hHit hClear
  rw [hcand, hundo] at hroll
  have hclamp : clampGoat (objectAt (16777215 / 16777216) GROUND_Y (-2) 0)
      = objectAt (16777215 / 16777216) GROUND_Y (-2) 0 := by
    apply clampGoat_of_inside
    norm_num [objectAt, MIN_Z, MAX_Z]
  have hInside : MIN_Z + 1 ≤ backGame.goat.offset.z ∧ backGame.goat.offset.z ≤ MAX_Z - 1 ∧
      backGame.goat.offset.z ≤ backGame.goat.offset.x ∧
      backGame.goat.offset.x ≤ -backGame.goat.offset.z := by
    norm_num [backGame, sampleGame, objectAt, MIN_Z, MAX_Z]
  have hYaw : -FULL_ROTATION ≤ backGame.goat.rotation.y ∧
      backGame.goat.rotation.y ≤ FULL_ROTATION := by
    norm_num [backGame, sampleGame, objectAt, FULL_ROTATION]
  refine ⟨hFree, hInside, hYaw, ⟨rfl, rfl, rfl, rfl⟩, hHit, rfl,
    { backGame with goat := objectAt (16777215 / 16777216) GROUND_Y (-2) 0 }, ?_, rfl, ?_⟩
  · have hwalk : walkGoatRounded float32 sampleEnv 2 backGame.tree backGame.goat downKey
        = some (objectAt (16777215 / 16777216) GROUND_Y (-2) 0) := by
      have e : walkGoatRounded float32 sampleEnv 2 backGame.tree backGame.goat downKey
          = rollback sampleEnv backGame.tree (stepForwardRounded float32 sampleEnv) 2
              (stepBackRounded float32 sampleEnv backGame.goat) := rfl
      rw [e, hcand]
      exact hroll
    have hturn : turnGoatRounded float32 sampleEnv 2 backGame.tree backGame.goat downKey
        = some backGame.goat := rfl
    simp only [moveGoatRounded, hturn, hwalk, hclamp]
  · intro h
    have hx : (16777215 / 16777216 : ℚ) = 1 := congrArg Vec3.x h
    norm_num at hx

/-- C6 as amended: the goat stands clear of the tree, inside its clamp region,
with a yaw within a full rotation either way; for each of the four moves
taken alone whose candidate pose collides with the tree and whose undo step
takes the candidate pose back to the pose before the move (so it is in exact
arithmetic, whatever the rounding is it need not be), moveGoat ends, with any
fuel of at least 2, and leaves the offset and the rotation of the goat as
they were.  The rounding `fl` of the float results is any function. -/
theorem rounded_rollback_exact (fl : ℚ → ℚ) (env : Env) (fuel : Nat) (g : GameLogic)
    (keyInput : KeyInput) (hFuel : 2 ≤ fuel)
    (hFree : env.collidesWithSceneObject g.goat g.tree = false)
    (hInside : MIN_Z + 1 ≤ g.goat.offset.z ∧ g.goat.offset.z ≤ MAX_Z - 1 ∧
      g.goat.offset.z ≤ g.goat.offset.x ∧ g.goat.offset.x ≤ -g.goat.offset.z)
    (hYaw : -(fl FULL_ROTATION) ≤ g.goat.rotation.y ∧ g.goat.rotation.y ≤ fl FULL_ROTATION)
    (hMove :
      (keyInput.left = true ∧ keyInput.right = false ∧ keyInput.up = false ∧
          keyInput.down = false ∧
          env.collidesWithSceneObject (yawMinusRounded fl g.goat) g.tree = true ∧
          yawPlusRounded fl (yawMinusRounded fl g.goat) = g.goat) ∨
        (keyInput.left = false ∧ keyInput.right = true ∧ keyInput.up = false ∧
          keyInput.down = false ∧
          env.collidesWithSceneObject (yawPlusRounded fl g.goat) g.tree = true ∧
          yawMinusRounded fl (yawPlusRounded fl g.goat) = g.goat) ∨
        (keyInput.left = false ∧ keyInput.right = false ∧ keyInput.up = true ∧
          keyInput.down = false ∧
          env.collidesWithSceneObject (stepForwardRounded fl env g.goat) g.tree = true ∧
          stepBackRounded fl env (stepForwardRounded fl env g.goat) = g.goat) ∨
        (keyInput.left = false ∧ keyInput.right = false ∧ keyInput.up = false ∧
          keyInput.down = true ∧
          env.collidesWithSceneObject (stepBackRounded fl env g.goat) g.tree = true ∧
          stepForwardRounded fl env (stepBackRounded fl env g.goat) = g.goat)) :
    ∃ g1 : GameLogic, moveGoatRounded fl env fuel g keyInput = some g1 ∧
      g1.goat.offset = g.goat.offset ∧ g1.goat.rotation = g.goat.rotation := by
  obtain ⟨n, rfl⟩ : ∃ n, fuel = n + 2 := ⟨fuel - 2, by omega⟩
  have hlo : ¬ g.goat.rotation.y < -(fl FULL_ROTATION) := not_lt.mpr hYaw.1
  have hhi : ¬ fl FULL_ROTATION < g.goat.rotation.y := not_lt.mpr hYaw.2
  have hclamp := clampGoat_of_inside g.goat hInside
  refine ⟨{ g with goat := g.goat }, ?_, rfl, rfl⟩
  rcases hMove with ⟨hl, _, hu, hd, hc, hback⟩ | ⟨hl, hr, hu, hd, hc, hback⟩ |
    ⟨hl, hr, hu, hd, hc, hback⟩ | ⟨hl, hr, hu, hd, hc, hback⟩
  · have hroll := rollback_once env g.tree (yawPlusRounded fl) n (yawMinusRounded fl g.goat) hc
      (by rw [hback]; exact hFree)
    rw [hback] at hroll
    simp [moveGoatRounded, turnGoatRounded, walkGoatRounded, hl, hu, hd, hroll, hlo, hclamp]
  · have hroll := rollback_once env g.tree (yawMinusRounded fl) n (yawPlusRounded fl g.goat) hc
      (by rw [hback]; exact hFree)
    rw [hback] at hroll
    simp [moveGoatRounded, turnGoatRounded, walkGoatRounded, hl, hr, hu, hd, hroll, hhi, hclamp]
  · have hroll := rollback_once env g.tree (stepBackRounded fl env) n
      (stepForwardRounded fl env g.goat) hc (by rw [hback]; exact hFree)
    rw [hback] at hroll
    simp [moveGoatRounded, turnGoatRounded, walkGoatRounded, hl, hr, hu, hroll, hclamp]
  · have hroll := rollback_once env g.tree (stepForwardRounded fl env) n
      (stepBackRounded fl env g.goat) hc (by rw [hback]; exact hFree)
    rw [hback] at hroll
    simp [moveGoatRounded, turnGoatRounded, walkGoatRounded, hl, hr, hu, hd, hroll, hclamp]

/-- Witness of the amended C6, in the arithmetic of the machine: the goat at
x = 1, z = -2 with yaw 0 faces the tree one step short of it; the step
forward collides, and 1.0f - 0.05f + 0.05f is 1.0f again. -/
theorem rounded_rollback_exact_witness :
    2 ≤ 2 ∧
      sampleEnv.collidesWithSceneObject frontGame.goat frontGame.tree = false ∧
      (MIN_Z + 1 ≤ frontGame.goat.offset.z ∧ frontGame.goat.offset.z ≤ MAX_Z - 1 ∧
        frontGame.goat.offset.z ≤ frontGame.goat.offset.x ∧
        frontGame.goat.offset.x ≤ -frontGame.goat.offset.z) ∧
      (-(float32 FULL_ROTATION) ≤ frontGame.goat.rotation.y ∧
        frontGame.goat.rotation.y ≤ float32 FULL_ROTATION) ∧
      sampleEnv.collidesWithSceneObject (stepForwardRounded float32 sampleEnv frontGame.goat)
        frontGame.tree = true ∧
      stepBackRounded float32 sampleEnv (stepForwardRounded float32 sampleEnv frontGame.goat)
        = frontGame.goat ∧
      ∃ g1 : GameLogic, moveGoatRounded float32 sampleEnv 2 frontGame upKey = some g1 ∧
        g1.goat.offset = frontGame.goat.offset ∧
        g1.goat.rotation = frontGame.goat.rotation :=
  have hgoat : frontGame.goat = objectAt 1 GROUND_Y (-2) 0 := rfl
  have htree : frontGame.tree = objectAt (-52 / 100) GROUND_Y (-2) 0 := rfl
  have hcand : stepForwardRounded float32 sampleEnv frontGame.goat
      = objectAt (15938355 / 16777216) GROUND_Y (-2) 0 := by
    rw [hgoat, stepForwardRounded_yaw_zero, float32_one_minus_speed, float32_neg_two]
  have hback : stepBackRounded float32 sampleEnv
      (stepForwardRounded float32 sampleEnv frontGame.goat) = frontGame.goat := by
    rw [hcand, stepBackRounded_yaw_zero, float32_forth_again, float32_neg_two]
    rfl
  have hFree : sampleEnv.collidesWithSceneObject frontGame.goat frontGame.tree = false := by
    rw [hgoat, htree]
    simp [sampleEnv, noseHit, boxHit, objectAt, cosQ_zero, sinQ_zero, GROUND_Y]
    norm_num
  have hHit : sampleEnv.collidesWithSceneObject
      (stepForwardRounded float32 sampleEnv frontGame.goat) frontGame.tree = true := by
    rw [hcand, htree]
    simp [sampleEnv, noseHit, boxHit, objectAt, cosQ_zero, sinQ_zero, GROUND_Y]
    norm_num
  have hInside : MIN_Z + 1 ≤ frontGame.goat.offset.z ∧ frontGame.goat.offset.z ≤ MAX_Z - 1 ∧
      frontGame.goat.offset.z ≤ frontGame.goat.offset.x ∧
      frontGame.goat.offset.x ≤ -frontGame.goat.offset.z := by
    norm_num [frontGame, sampleGame, objectAt, MIN_Z, MAX_Z]
  have hYaw : -(float32 FULL_ROTATION) ≤ frontGame.goat.rotation.y ∧
      frontGame.goat.rotation.y ≤ float32 FULL_ROTATION := by
    rw [float32_full_rotation]
    norm_num [frontGame, sampleGame, objectAt]
  ⟨le_refl 2, hFree, hInside, hYaw, hHit, hback,
    rounded_rollback_exact float32 sampleEnv 2 frontGame upKey (le_refl 2) hFree hInside hYaw
      (Or.inr (Or.inr (Or.inl ⟨rfl, rfl, rfl, rfl, hHit, hback⟩)))⟩

end AvoidTheBug3D
